import Mathlib

/-!
# golang-socketio: the channel loops of `loop.go` and `GetUrl` of `client.go`

A shallow embedding of the channel engine.  A Go channel value is a list (the
buffered elements, oldest first) together with a closed flag where the source
closes it; the transport connection is a script of the results its calls
return together with a log of the calls made on it; the dispatcher callbacks
are logs of the calls made to them.  In the interleaved system a
`closeChannel` call is one step (it holds `aliveLock` from start to end), and so
is an iteration of `inLoop`, of `workerLoop` and of `pinger`; an iteration of
`outLoop` is three steps, since no lock is held across them: the read of
`len(c.out)`, the branch on the value read with its update of the overflow
map, and the receive with the write.
-/

namespace Gosocketio

/-! ## Data model (`loop.go`) -/

/-- Capacity of both queues of a channel (`queueBufferSize`). -/
def queueBufferSize : Nat := 500

/-- Error values seen by the loops.  `ErrorWrongHeader` is declared in `loop.go`;
`ErrorSocketOverflood` and `ErrorWrongPacket` are declared elsewhere in the
repository; the remaining constructors stand for errors produced by the
transport, by the wire codec and by the JSON decoder. -/
inductive Error where
  | ErrorWrongHeader
  | ErrorSocketOverflood
  | ErrorWrongPacket
  | transport (msg : String)
  | codec (msg : String)
  | json (msg : String)
  deriving DecidableEq

/-- The engine.io header (`Header`). -/
structure Header where
  Sid : String
  Upgrades : List String
  PingInterval : Int
  PingTimeout : Int
  deriving DecidableEq

/-- Modelled from the spec: the type tag of a decoded message of the `protocol`
package, which is not among the sources; the spec lists the tags Open, Ping,
Pong, Close and Data. -/
inductive MessageType where
  | Open
  | Close
  | Ping
  | Pong
  | Data
  deriving DecidableEq

/-- Modelled from the spec: a decoded message of the `protocol` package, with the
fields `loop.go` reads (`Type`, here `Type_`, `Method`, `Source`). -/
structure Message where
  Type_ : MessageType
  Method : String
  Source : String
  deriving DecidableEq

/-- The two lifecycle events `loop.go` passes to `callLoopEvent`. -/
inductive LoopEvent where
  | OnConnection
  | OnDisconnection
  deriving DecidableEq

/-- What the loops use from outside `loop.go`: the sentinel frames of the
`protocol` package and the behaviour of `json.Unmarshal` on a `Header` target,
split into the header it leaves behind and the error it returns. -/
structure Env where
  CloseMessage : String
  PingMessage : String
  PongMessage : String
  unmarshalInto : String → Header → Header
  unmarshalErr : String → Option Error

/-- One result of the read path of `inLoop`: `GetMessage` failed, `Decode`
failed, or a message was decoded. -/
inductive ReadResult where
  | getMessageError (err : Error)
  | decodeError (err : Error)
  | decoded (msg : Message)
  deriving DecidableEq

/-- A `Channel` together with the process state its loops touch.
`connCloseCalls`, `connGetMessageCalls` and `connWritten` log the calls made on
`conn`; `connWriteResults` holds the results the coming `WriteMessage` calls
return (success once exhausted).  `inQueue`/`inClosed` is the Go channel `in`,
`out` the Go channel `out`.  `self` is the identity of the channel, the key
under which it is stored in the process-wide map `overflooded`.  `events` logs
the `callLoopEvent` calls, `processed` the synchronous
`processIncomingMessage` calls and `spawned` the ones started with `go`. -/
structure State where
  connCloseCalls : Nat
  connGetMessageCalls : Nat
  connWritten : List String
  connWriteResults : List (Option Error)
  inQueue : List Message
  inClosed : Bool
  out : List String
  header : Header
  alive : Bool
  sequentialInLoop : Bool
  self : Nat
  overflooded : List Nat
  events : List LoopEvent
  processed : List Message
  spawned : List Message
  deriving DecidableEq

/-- How a call of one of the loop functions ends: it returns an error value
(`none` is nil), it is suspended on a channel operation or a transport read
that nothing in the modelled run completes, or it panics. -/
inductive Outcome where
  | returned (err : Option Error)
  | blocked
  | sendOnClosedChannel
  | sliceOutOfRange
  deriving DecidableEq

/-- Final state and outcome of a loop function. -/
structure Result where
  state : State
  outcome : Outcome
  deriving DecidableEq

/-- One loop iteration either falls through to the next one or leaves the loop. -/
inductive Iter where
  | next (s : State)
  | done (s : State) (o : Outcome)
  deriving DecidableEq

/-- State an iteration leaves behind. -/
def Iter.state : Iter → State
  | .next s => s
  | .done s _ => s

/-- The zero value of the header. -/
def Header.zero : Header := ⟨"", [], 0, 0⟩

/-- The zero value of a channel with identity `self`, in a process whose
overflow map is `reg`. -/
def State.zero (self : Nat) (reg : List Nat) : State :=
  { connCloseCalls := 0, connGetMessageCalls := 0, connWritten := [],
    connWriteResults := [], inQueue := [], inClosed := false, out := [],
    header := Header.zero, alive := false, sequentialInLoop := false,
    self := self, overflooded := reg, events := [], processed := [], spawned := [] }

/-- Source `initChannel`: fresh queues and `alive = true`. -/
def initChannel (c : State) : State :=
  { c with inQueue := [], inClosed := false, out := [], alive := true }

/-- Source `Channel.Id`. -/
def Id (c : State) : String := c.header.Sid

/-- Source `Channel.IsAlive`. -/
def IsAlive (c : State) : Bool := c.alive

/-- Dispatcher call `m.callLoopEvent(c, event)`, recorded in the event log. -/
def callLoopEvent (s : State) (e : LoopEvent) : State :=
  { s with events := s.events ++ [e] }

/-- Map update `overflooded[c] = struct{}{}`. -/
def overfloodedInsert (reg : List Nat) (c : Nat) : List Nat :=
  if c ∈ reg then reg else c :: reg

/-- Map update `delete(overflooded, c)`. -/
def overfloodedDelete (reg : List Nat) (c : Nat) : List Nat :=
  reg.filter (fun x => x ≠ c)

/-- Source `AmountOfOverflooded`. -/
def AmountOfOverflooded (s : State) : Int := (s.overflooded.length : Int)

/-- The loop `for len(c.out) > 0 { <-c.out }` of `closeChannel`. -/
def drainOut : List String → List String
  | [] => []
  | _ :: rest => drainOut rest

/-- Source `closeChannel`.  The send of the close sentinel follows the drain
loop, so the queue (capacity 500) has room for it. -/
def closeChannel (E : Env) (c : State) (_args : List Error) : State × Option Error :=
  if !c.alive then
    (c, none)
  else
    let c := { c with connCloseCalls := c.connCloseCalls + 1 }
    let c := { c with alive := false }
    let c := { c with inClosed := true }
    let c := { c with out := drainOut c.out }
    let c := { c with out := c.out ++ [E.CloseMessage] }
    let c := callLoopEvent c LoopEvent.OnDisconnection
    let c := { c with overflooded := overfloodedDelete c.overflooded c.self }
    (c, none)

/-- Successive `closeChannel` calls, one per argument list. -/
def closeChannelTimes (E : Env) : List (List Error) → State → State
  | [], c => c
  | args :: rest, c => closeChannelTimes E rest (closeChannel E c args).1

/-! ## `client.go` -/

def webSocketProtocol : String := "ws://"

def webSocketSecureProtocol : String := "wss://"

def socketioUrl : String := "/socket.io/?EIO=3&transport=websocket"

/-- Go `strconv.Itoa`: the decimal digits, preceded by a minus sign below zero. -/
def Itoa (i : Int) : String :=
  match i with
  | Int.ofNat n => Nat.repr n
  | Int.negSucc n => "-" ++ Nat.repr (n + 1)

/-- Source `GetUrl`. -/
def GetUrl (host : String) (port : Int) (secure : Bool) : String :=
  let pfx := if secure then webSocketSecureProtocol else webSocketProtocol
  pfx ++ host ++ ":" ++ Itoa port ++ socketioUrl

/-! ## The loops of `loop.go` -/

/-- The send `c.out <- msg` on the buffered channel `out`: `none` when the
buffer is full and the sender is suspended. -/
def sendOut (c : State) (msg : String) : Option State :=
  if c.out.length < queueBufferSize then some { c with out := c.out ++ [msg] } else none

/-- Go slice expression `s[1:]`; `none` is the run-time panic on the empty
string.  Characters stand for bytes (the first byte of a frame is ASCII). -/
def sliceFromOne (s : String) : Option String :=
  match s.data with
  | [] => none
  | _ :: rest => some (String.mk rest)

/-- One iteration of the `for` loop of source `inLoop`, on the read result `r`
that `GetMessage` and `Decode` produce in it. -/
def inLoopIter (E : Env) (c : State) (r : ReadResult) : Iter :=
  let c := { c with connGetMessageCalls := c.connGetMessageCalls + 1 }
  match r with
  | .getMessageError err =>
      .done (closeChannel E c [err]).1 (.returned (closeChannel E c [err]).2)
  | .decodeError err =>
      .done (closeChannel E c [Error.ErrorWrongPacket]).1 (.returned (some err))
  | .decoded msg =>
      match msg.Type_ with
      | .Open =>
          match sliceFromOne msg.Source with
          | none => .done c .sliceOutOfRange
          | some data =>
              let c := { c with header := E.unmarshalInto data c.header }
              let c := match E.unmarshalErr data with
                | some _ => (closeChannel E c [Error.ErrorWrongHeader]).1
                | none => c
              .next (callLoopEvent c LoopEvent.OnConnection)
      | .Ping =>
          match sendOut c E.PongMessage with
          | some c => .next c
          | none => .done c .blocked
      | .Pong => .next c
      | _ =>
          if c.sequentialInLoop then
            if c.inClosed then .done c .sendOnClosedChannel
            else if c.inQueue.length < queueBufferSize then
              .next { c with inQueue := c.inQueue ++ [msg] }
            else .done c .blocked
          else
            .next { c with spawned := c.spawned ++ [msg] }

/-- Source `inLoop`, run on the read results the transport delivers; when they
are used up the loop is suspended in `GetMessage`. -/
def inLoop (E : Env) : List ReadResult → State → Result
  | [], c => ⟨c, .blocked⟩
  | r :: rest, c =>
      match inLoopIter E c r with
      | .next c => inLoop E rest c
      | .done c o => ⟨c, o⟩

/-- One iteration of the `for` loop of source `workerLoop`: a receive on the
closed and drained channel `in` yields nil. -/
def workerLoopIter (c : State) : Iter :=
  match c.inQueue with
  | msg :: rest => .next { c with inQueue := rest, processed := c.processed ++ [msg] }
  | [] => if c.inClosed then .done c (.returned none) else .done c .blocked

/-- Source `workerLoop`, at most `fuel` iterations (`none`: more are needed). -/
def workerLoop : Nat → State → Option Result
  | 0, _ => none
  | fuel + 1, c =>
      match workerLoopIter c with
      | .next c => workerLoop fuel c
      | .done c o => some ⟨c, o⟩

/-- Transport call `c.conn.WriteMessage(msg)`. -/
def WriteMessage (c : State) (msg : String) : State × Option Error :=
  let c := { c with connWritten := c.connWritten ++ [msg] }
  match c.connWriteResults with
  | [] => (c, none)
  | r :: rest => ({ c with connWriteResults := rest }, r)

/-- The `if`/`else if`/`else` of source `outLoop` on the value `outBufferLen`
read before it, run on the state `c` the channel is in by then. -/
def outLoopBranch (E : Env) (c : State) (outBufferLen : Nat) : Iter :=
  if outBufferLen ≥ queueBufferSize - 1 then
    .done (closeChannel E c [Error.ErrorSocketOverflood]).1
      (.returned (closeChannel E c [Error.ErrorSocketOverflood]).2)
  else if outBufferLen > queueBufferSize / 2 then
    .next { c with overflooded := overfloodedInsert c.overflooded c.self }
  else
    .next { c with overflooded := overfloodedDelete c.overflooded c.self }

/-- First half of an iteration of source `outLoop`, run without interruption:
the read `outBufferLen := len(c.out)` and the branch on it. -/
def outLoopCheck (E : Env) (c : State) : Iter :=
  let outBufferLen := c.out.length
  outLoopBranch E c outBufferLen

/-- Second half of an iteration of source `outLoop`: the receive from `out` and
the write. -/
def outLoopRecv (E : Env) (c : State) : Iter :=
  match c.out with
  | [] => .done c .blocked
  | msg :: rest =>
      let c := { c with out := rest }
      if msg = E.CloseMessage then .done c (.returned none)
      else
        match (WriteMessage c msg).2 with
        | some err =>
            .done (closeChannel E (WriteMessage c msg).1 [err]).1
              (.returned (closeChannel E (WriteMessage c msg).1 [err]).2)
        | none => .next (WriteMessage c msg).1

/-- One iteration of the `for` loop of source `outLoop`. -/
def outLoopIter (E : Env) (c : State) : Iter :=
  match outLoopCheck E c with
  | .next c => outLoopRecv E c
  | .done c o => .done c o

/-- Source `outLoop`, at most `fuel` iterations (`none`: more are needed). -/
def outLoop (E : Env) : Nat → State → Option Result
  | 0, _ => none
  | fuel + 1, c =>
      match outLoopIter E c with
      | .next c => outLoop E fuel c
      | .done c o => some ⟨c, o⟩

/-- One iteration of source `pinger`, after its sleep. -/
def pingerIter (E : Env) (c : State) : Iter :=
  if !IsAlive c then .done c (.returned none)
  else
    match sendOut c E.PingMessage with
    | some c => .next c
    | none => .done c .blocked

/-! ## The goroutines of one channel, interleaved -/

/-- Where `outLoop` stands: before the read of the queue depth, between the
read (of the value `outBufferLen`) and the branch on it, or at the receive. -/
inductive OutPc where
  | check
  | branch (outBufferLen : Nat)
  | recv
  deriving DecidableEq

/-- The goroutines `Dial` starts, and a `closeChannel` call from outside the
loops (`Client.Close`). -/
inductive Task where
  | inLoop
  | workerLoop
  | outLoop
  | pinger
  | close (args : List Error)
  deriving DecidableEq

/-- The channel and its goroutines.  `pending` holds the read results the
transport has yet to deliver; the `...End` fields are `none` while the loop
runs.  `readLog` records each read result `inLoop` handled with the value of
`alive` at that moment, `lastObserved` the queue depth `outLoop` read last. -/
structure Sys where
  c : State
  pending : List ReadResult
  inLoopEnd : Option Outcome
  workerLoopEnd : Option Outcome
  outLoopEnd : Option Outcome
  outLoopPc : OutPc
  pingerEnd : Option Outcome
  readLog : List (ReadResult × Bool)
  lastObserved : Option Nat

/-- One scheduling step of task `t`.  A task that is suspended or has ended
leaves the system as it is. -/
def step (E : Env) (t : Task) (y : Sys) : Sys :=
  match t with
  | .inLoop =>
      match y.inLoopEnd, y.pending with
      | none, r :: rest =>
          match inLoopIter E y.c r with
          | .next c => { y with c := c, pending := rest, readLog := y.readLog ++ [(r, y.c.alive)] }
          | .done _ .blocked => y
          | .done c o =>
              { y with c := c, pending := rest, inLoopEnd := some o,
                       readLog := y.readLog ++ [(r, y.c.alive)] }
      | _, _ => y
  | .workerLoop =>
      match y.workerLoopEnd with
      | none =>
          match workerLoopIter y.c with
          | .next c => { y with c := c }
          | .done _ .blocked => y
          | .done c o => { y with c := c, workerLoopEnd := some o }
      | some _ => y
  | .outLoop =>
      match y.outLoopEnd, y.outLoopPc with
      | none, .check =>
          { y with outLoopPc := .branch y.c.out.length, lastObserved := some y.c.out.length }
      | none, .branch outBufferLen =>
          match outLoopBranch E y.c outBufferLen with
          | .next c => { y with c := c, outLoopPc := .recv }
          | .done c o => { y with c := c, outLoopEnd := some o, outLoopPc := .recv }
      | none, .recv =>
          match outLoopRecv E y.c with
          | .next c => { y with c := c, outLoopPc := .check }
          | .done _ .blocked => y
          | .done c o => { y with c := c, outLoopEnd := some o }
      | some _, _ => y
  | .pinger =>
      match y.pingerEnd with
      | none =>
          match pingerIter E y.c with
          | .next c => { y with c := c }
          | .done _ .blocked => y
          | .done c o => { y with c := c, pingerEnd := some o }
      | some _ => y
  | .close args => { y with c := (closeChannel E y.c args).1 }

/-- A run under the schedule `sched`. -/
def run (E : Env) : List Task → Sys → Sys
  | [], y => y
  | t :: rest, y => run E rest (step E t y)

/-- The system right after `Dial`: the channel `c` with the loops at their
start and `frames` still to be delivered by the transport. -/
def Sys.start (c : State) (frames : List ReadResult) : Sys :=
  { c := c, pending := frames, inLoopEnd := none, workerLoopEnd := none,
    outLoopEnd := none, outLoopPc := .check, pingerEnd := none, readLog := [],
    lastObserved := none }

/-- The data message (type other than Open, Ping, Pong) of a read result that
`inLoop` handled while the channel was alive, if it is one. -/
def dataOf : ReadResult × Bool → List Message
  | (.decoded msg, true) =>
      if msg.Type_ = .Open ∨ msg.Type_ = .Ping ∨ msg.Type_ = .Pong then [] else [msg]
  | _ => []

/-- The data messages among the read results `inLoop` handled while the
channel was alive, in the order of the log. -/
def dataBeforeClose : List (ReadResult × Bool) → List Message
  | [] => []
  | x :: rest => dataOf x ++ dataBeforeClose rest

/-- What an iteration of a loop other than `inLoop` and `workerLoop` leaves of
the inbound side: the queue, the dispatch log and the mode as they are, the
queue closed exactly when the channel is not alive, a closed channel closed. -/
def QueueFrame (c c2 : State) : Prop :=
  c2.inQueue = c.inQueue ∧ c2.processed = c.processed ∧
  c2.sequentialInLoop = c.sequentialInLoop ∧
  (c.inClosed = !c.alive → c2.inClosed = !c2.alive) ∧
  (c.alive = false → c2.alive = false)

/-- Invariant of the inbound side in sequential mode, for a run on `frames`:
the inbound queue is closed exactly when the channel is not alive; the
messages dispatched so far followed by the queued ones are the data messages
`inLoop` handled while the channel was alive; the handled read results
followed by the pending ones are `frames`; and `workerLoop` has ended only by
returning nil on the closed and drained queue. -/
def QueueInv (frames : List ReadResult) (y : Sys) : Prop :=
  y.c.inClosed = (!y.c.alive) ∧ y.c.sequentialInLoop = true ∧
  y.c.processed ++ y.c.inQueue = dataBeforeClose y.readLog ∧
  y.readLog.map Prod.fst ++ y.pending = frames ∧
  (∀ o, y.workerLoopEnd = some o →
    o = .returned none ∧ y.c.inQueue = [] ∧ y.c.inClosed = true)

/-- Whether `outLoop` stands between its read of the queue depth and the
branch on the value read. -/
def OutPc.isBranch : OutPc → Bool
  | .branch _ => true
  | _ => false

/-- Invariant of the overflow map for a channel.  While the channel is alive
and `outLoop` is not between its read of the queue depth and the branch, the
channel is in the map exactly when the depth read last lies above half the
capacity and below capacity - 1.  Between the read and the branch the depth
read last is the one the branch will use.  And a depth of capacity - 1 or more
whose branch has run has closed the channel. -/
def OverflowInv (y : Sys) : Prop :=
  (y.c.alive = true → y.outLoopPc.isBranch = false →
    (y.c.self ∈ y.c.overflooded ↔
      ∃ d, y.lastObserved = some d ∧ queueBufferSize / 2 < d ∧ d < queueBufferSize - 1)) ∧
  (∀ d, y.outLoopPc = .branch d → y.lastObserved = some d) ∧
  (∀ d, y.lastObserved = some d → queueBufferSize - 1 ≤ d → y.outLoopPc.isBranch = false →
    y.c.alive = false)

/-- What a step leaves of the overflow side when it does not update the map: the
identity of the channel; the map itself, unless the step closed the channel;
and a closed channel closed. -/
def OverflowFrame (c c2 : State) : Prop :=
  c2.self = c.self ∧
  (c2.alive = true → c.alive = true ∧ c2.overflooded = c.overflooded) ∧
  (c.alive = false → c2.alive = false)

/-- Whether a read result is a decoded Open frame. -/
def isOpen : ReadResult → Bool
  | .decoded msg => decide (msg.Type_ = MessageType.Open)
  | _ => false

/-! ## Concrete channels and frames for the examples -/

/-- An environment for the concrete runs: the sentinel frames are taken to be
"1", "2" and "3", and `json.Unmarshal` is given on three payloads: the objects
with the single member `sid` equal to `abc` and to `xyz` set `Sid` and return
nil, and the text consisting of one opening brace is a syntax error that
leaves the target as it is (as does, here, every other text). -/
def sampleEnv : Env :=
  { CloseMessage := "1", PingMessage := "2", PongMessage := "3",
    unmarshalInto := fun data h =>
      if data = "\x7b\"sid\":\"abc\"\x7d" then { h with Sid := "abc" }
      else if data = "\x7b\"sid\":\"xyz\"\x7d" then { h with Sid := "xyz" }
      else h,
    unmarshalErr := fun data =>
      if data = "\x7b\"sid\":\"abc\"\x7d" then none
      else if data = "\x7b\"sid\":\"xyz\"\x7d" then none
      else some (Error.json "unexpected end of JSON input") }

/-- A channel right after `initChannel`, with identity 7 and an empty overflow
map. -/
def freshChannel : State := initChannel (State.zero 7 [])

/-- The channel of `Dial2`: `freshChannel` with `sequentialInLoop` set. -/
def sequentialChannel : State := { freshChannel with sequentialInLoop := true }

/-- `freshChannel` with `n` frames buffered in `out`. -/
def loadedChannel (n : Nat) : State := { freshChannel with out := List.replicate n "42[\"m\"]" }

/-- A decoded Open frame carrying the handshake `sid` = `abc`. -/
def openAbc : ReadResult := .decoded ⟨.Open, "", "0\x7b\"sid\":\"abc\"\x7d"⟩

/-- A decoded Open frame carrying the handshake `sid` = `xyz`. -/
def openXyz : ReadResult := .decoded ⟨.Open, "", "0\x7b\"sid\":\"xyz\"\x7d"⟩

/-- A decoded Open frame whose handshake payload is cut off after the brace. -/
def openMalformed : ReadResult := .decoded ⟨.Open, "", "0\x7b"⟩

/-- A decoded Ping frame. -/
def pingFrame : ReadResult := .decoded ⟨.Ping, "", "2"⟩

/-- A decoded data frame with method `m`. -/
def dataFrame (m : String) : ReadResult := .decoded ⟨.Data, m, "42[\"" ++ m ++ "\"]"⟩

/-- Read results for a sample run: two data frames around a Ping frame, then a
failed read, then a frame that is never read. -/
def sampleFrames : List ReadResult :=
  [dataFrame "a", pingFrame, dataFrame "b", .getMessageError (Error.transport "EOF"),
   dataFrame "c"]

/-- A schedule for the sample run. -/
def sampleSchedule : List Task :=
  [Task.inLoop, Task.inLoop, Task.workerLoop, Task.outLoop, Task.inLoop, Task.inLoop,
   Task.inLoop, Task.pinger]

/-! ## Lemmas on `closeChannel` -/

theorem drainOut_eq_nil (q : List String) : drainOut q = [] := by
  induction q with
  | nil => rfl
  | cons _ _ ih => simpa [drainOut] using ih

theorem closeChannel_of_not_alive (E : Env) (c : State) (args : List Error)
    (h : c.alive = false) : closeChannel E c args = (c, none) := by
  simp [closeChannel, h]

theorem closeChannel_of_alive (E : Env) (c : State) (args : List Error)
    (h : c.alive = true) :
    closeChannel E c args =
      ({ c with connCloseCalls := c.connCloseCalls + 1, alive := false, inClosed := true,
                out := [E.CloseMessage],
                events := c.events ++ [LoopEvent.OnDisconnection],
                overflooded := overfloodedDelete c.overflooded c.self }, none) := by
  simp [closeChannel, h, callLoopEvent, drainOut_eq_nil]

theorem closeChannel_alive (E : Env) (c : State) (args : List Error) :
    (closeChannel E c args).1.alive = false := by
  cases h : c.alive
  · rw [closeChannel_of_not_alive E c args h]; exact h
  · rw [closeChannel_of_alive E c args h]

theorem closeChannelTimes_of_not_alive (E : Env) (l : List (List Error)) (c : State)
    (h : c.alive = false) : closeChannelTimes E l c = c := by
  induction l with
  | nil => rfl
  | cons a rest ih => simp [closeChannelTimes, closeChannel_of_not_alive E c a h, ih]

theorem not_mem_overfloodedDelete (reg : List Nat) (c : Nat) :
    c ∉ overfloodedDelete reg c := by
  simp [overfloodedDelete]

theorem mem_overfloodedInsert (reg : List Nat) (c : Nat) :
    c ∈ overfloodedInsert reg c := by
  unfold overfloodedInsert
  split <;> simp_all

/-! ## `closeChannel` -/

/-- C1: closeChannel is idempotent. On a channel whose alive flag is false it
returns nil and leaves the whole state as it is (no transport Close call, no
event, queues, flag and overflow map unchanged); and any N >= 1 successive
calls on a channel that starts alive call the transport's Close exactly once
and fire OnDisconnection exactly once (and no other event). -/
theorem closeChannel_idempotent (E : Env) :
    (∀ (c : State) (args : List Error), c.alive = false →
        closeChannel E c args = (c, none)) ∧
    (∀ (calls : List (List Error)) (c : State), 1 ≤ calls.length → c.alive = true →
        (closeChannelTimes E calls c).connCloseCalls = c.connCloseCalls + 1 ∧
        (closeChannelTimes E calls c).events = c.events ++ [LoopEvent.OnDisconnection]) := by
  refine ⟨fun c args h => closeChannel_of_not_alive E c args h, ?_⟩
  intro calls c hN hc
  cases calls with
  | nil => simp at hN
  | cons a rest =>
    have h1 : (closeChannel E c a).1.alive = false := closeChannel_alive E c a
    rw [closeChannelTimes, closeChannelTimes_of_not_alive E rest _ h1,
      closeChannel_of_alive E c a hc]
    exact ⟨rfl, rfl⟩

theorem closeChannel_idempotent_witness :
    closeChannel sampleEnv (State.zero 7 [7]) [Error.ErrorWrongPacket]
        = (State.zero 7 [7], none) ∧
    (closeChannelTimes sampleEnv [[], [Error.ErrorWrongHeader], []] freshChannel).connCloseCalls
        = freshChannel.connCloseCalls + 1 ∧
    (closeChannelTimes sampleEnv [[], [Error.ErrorWrongHeader], []] freshChannel).events
        = freshChannel.events ++ [LoopEvent.OnDisconnection] :=
  ⟨(closeChannel_idempotent sampleEnv).1 (State.zero 7 [7]) [Error.ErrorWrongPacket] rfl,
   (closeChannel_idempotent sampleEnv).2 [[], [Error.ErrorWrongHeader], []] freshChannel
      (by decide) rfl⟩

/-- C2: on an alive channel, for every outbound queue content and every cause
argument, closeChannel returns nil, and afterwards: the transport's Close has
been called once more, alive is false, the inbound queue is closed, the
outbound queue holds exactly the Close sentinel, OnDisconnection has been fired
once, the channel is not in the overflow map, and every other part of the state
is as before. The resulting state is the same for any two cause arguments. -/
theorem closeChannel_teardown (E : Env) (c : State) (args args2 : List Error)
    (h : c.alive = true) :
    (closeChannel E c args).2 = none ∧
    (closeChannel E c args).1.connCloseCalls = c.connCloseCalls + 1 ∧
    (closeChannel E c args).1.alive = false ∧
    (closeChannel E c args).1.inClosed = true ∧
    (closeChannel E c args).1.out = [E.CloseMessage] ∧
    (closeChannel E c args).1.events = c.events ++ [LoopEvent.OnDisconnection] ∧
    c.self ∉ (closeChannel E c args).1.overflooded ∧
    (closeChannel E c args).1.inQueue = c.inQueue ∧
    (closeChannel E c args).1.connWritten = c.connWritten ∧
    (closeChannel E c args).1.header = c.header ∧
    closeChannel E c args = closeChannel E c args2 := by
  rw [closeChannel_of_alive E c args h, closeChannel_of_alive E c args2 h]
  simp [not_mem_overfloodedDelete]

theorem closeChannel_teardown_witness :
    (closeChannel sampleEnv (loadedChannel 3) [Error.ErrorWrongPacket]).2 = none ∧
    (closeChannel sampleEnv (loadedChannel 3) [Error.ErrorWrongPacket]).1.connCloseCalls
      = (loadedChannel 3).connCloseCalls + 1 ∧
    (closeChannel sampleEnv (loadedChannel 3) [Error.ErrorWrongPacket]).1.alive = false ∧
    (closeChannel sampleEnv (loadedChannel 3) [Error.ErrorWrongPacket]).1.inClosed = true ∧
    (closeChannel sampleEnv (loadedChannel 3) [Error.ErrorWrongPacket]).1.out
      = [sampleEnv.CloseMessage] ∧
    (closeChannel sampleEnv (loadedChannel 3) [Error.ErrorWrongPacket]).1.events
      = (loadedChannel 3).events ++ [LoopEvent.OnDisconnection] ∧
    (loadedChannel 3).self ∉
      (closeChannel sampleEnv (loadedChannel 3) [Error.ErrorWrongPacket]).1.overflooded ∧
    (closeChannel sampleEnv (loadedChannel 3) [Error.ErrorWrongPacket]).1.inQueue
      = (loadedChannel 3).inQueue ∧
    (closeChannel sampleEnv (loadedChannel 3) [Error.ErrorWrongPacket]).1.connWritten
      = (loadedChannel 3).connWritten ∧
    (closeChannel sampleEnv (loadedChannel 3) [Error.ErrorWrongPacket]).1.header
      = (loadedChannel 3).header ∧
    closeChannel sampleEnv (loadedChannel 3) [Error.ErrorWrongPacket]
      = closeChannel sampleEnv (loadedChannel 3) [] :=
  closeChannel_teardown sampleEnv (loadedChannel 3) [Error.ErrorWrongPacket] [] rfl

/-! ## `GetUrl` -/

/-- C9: for every host, port and secure flag, GetUrl is the scheme
("wss://" when secure, "ws://" otherwise), the host, a colon, the decimal port
(strconv.Itoa, which agrees with the usual rendering of an integer) and
"/socket.io/?EIO=3&transport=websocket"; the result starts with "wss://"
exactly when secure is true, and always ends with the socket.io path and
query. -/
theorem GetUrl_spec (host : String) (port : Int) (secure : Bool) :
    GetUrl host port secure
      = (if secure then "wss://" else "ws://") ++ host ++ ":" ++ Itoa port
          ++ "/socket.io/?EIO=3&transport=websocket" ∧
    Itoa port = toString port ∧
    ("wss://".data <+: (GetUrl host port secure).data ↔ secure = true) ∧
    "/socket.io/?EIO=3&transport=websocket".data <:+ (GetUrl host port secure).data := by
  refine ⟨rfl, ?_, ?_, ?_⟩
  · cases port <;> rfl
  · cases secure
    · simp [GetUrl, webSocketProtocol, String.data_append]
    · simp [GetUrl, webSocketSecureProtocol, String.data_append]
  · refine ⟨((if secure then webSocketSecureProtocol else webSocketProtocol) ++ host ++ ":"
      ++ Itoa port).data, ?_⟩
    simp [GetUrl, socketioUrl, String.data_append]

/-! ## `outLoop` -/

theorem loadedChannel_out_length (n : Nat) : (loadedChannel n).out.length = n := by
  simp [loadedChannel]

theorem outLoopBranch_overflow (E : Env) (c : State) (d : Nat) (h : queueBufferSize - 1 ≤ d) :
    outLoopBranch E c d
      = .done (closeChannel E c [Error.ErrorSocketOverflood]).1 (.returned none) := by
  have h2 : (closeChannel E c [Error.ErrorSocketOverflood]).2 = none := by
    unfold closeChannel; split <;> rfl
  simp [outLoopBranch, h, h2]

theorem outLoopCheck_overflow (E : Env) (c : State) (h : queueBufferSize - 1 ≤ c.out.length) :
    outLoopCheck E c = .done (closeChannel E c [Error.ErrorSocketOverflood]).1 (.returned none) :=
  outLoopBranch_overflow E c c.out.length h

theorem closeChannel_connWritten (E : Env) (c : State) (args : List Error) :
    (closeChannel E c args).1.connWritten = c.connWritten := by
  unfold closeChannel; split <;> rfl

theorem closeChannel_overflooded_sub (E : Env) (c : State) (args : List Error) (x : Nat)
    (h : x ∈ (closeChannel E c args).1.overflooded) : x ∈ c.overflooded := by
  unfold closeChannel at h
  split at h
  · exact h
  · simp [callLoopEvent, overfloodedDelete] at h
    exact h.1

theorem overfloodedDelete_of_not_mem (reg : List Nat) (c : Nat) (h : c ∉ reg) :
    overfloodedDelete reg c = reg := by
  unfold overfloodedDelete
  rw [List.filter_eq_self]
  intro a ha
  have : a ≠ c := fun e => h (e ▸ ha)
  simpa using this

/-- C4: at the start of an outLoop iteration, with d the depth of the outbound
queue and capacity 500 (so capacity - 1 = 499 and capacity / 2 = 250), exactly
one of three things happens. If d >= 499 the iteration is the closeChannel call
(overflow cause) and the loop returns nil: nothing is written, the channel is
not alive afterwards and it is not added to the overflow map. If 250 < d < 499
the channel is put into the overflow map and the iteration goes on to the
receive with nothing else changed. If d <= 250 the channel is deleted from the
overflow map (which leaves the map as it is when the channel is absent) and the
iteration goes on to the receive. The three conditions exclude one another
and one of them always holds. -/
theorem outLoop_depth_cases (E : Env) (c : State) :
    (queueBufferSize - 1 = 499 ∧ queueBufferSize / 2 = 250) ∧
    (499 ≤ c.out.length →
        outLoopIter E c
          = .done (closeChannel E c [Error.ErrorSocketOverflood]).1 (.returned none) ∧
        (outLoopIter E c).state.connWritten = c.connWritten ∧
        (outLoopIter E c).state.alive = false ∧
        (c.self ∈ (outLoopIter E c).state.overflooded → c.self ∈ c.overflooded)) ∧
    (250 < c.out.length → c.out.length < 499 →
        outLoopCheck E c
          = .next { c with overflooded := overfloodedInsert c.overflooded c.self } ∧
        c.self ∈ (outLoopCheck E c).state.overflooded) ∧
    (c.out.length ≤ 250 →
        outLoopCheck E c
          = .next { c with overflooded := overfloodedDelete c.overflooded c.self } ∧
        c.self ∉ (outLoopCheck E c).state.overflooded ∧
        (c.self ∉ c.overflooded → outLoopCheck E c = .next c)) ∧
    ((499 ≤ c.out.length ∧ ¬ (250 < c.out.length ∧ c.out.length < 499)
        ∧ ¬ c.out.length ≤ 250) ∨
     (¬ 499 ≤ c.out.length ∧ (250 < c.out.length ∧ c.out.length < 499)
        ∧ ¬ c.out.length ≤ 250) ∨
     (¬ 499 ≤ c.out.length ∧ ¬ (250 < c.out.length ∧ c.out.length < 499)
        ∧ c.out.length ≤ 250)) := by
  refine ⟨⟨rfl, rfl⟩, ?_, ?_, ?_, by omega⟩
  · intro h
    have hc := outLoopCheck_overflow E c (by simpa [queueBufferSize] using h)
    have hi : outLoopIter E c
        = .done (closeChannel E c [Error.ErrorSocketOverflood]).1 (.returned none) := by
      simp [outLoopIter, hc]
    rw [hi]
    exact ⟨rfl, closeChannel_connWritten E c _, closeChannel_alive E c _,
      closeChannel_overflooded_sub E c _ c.self⟩
  · intro h1 h2
    have hc : outLoopCheck E c
        = .next { c with overflooded := overfloodedInsert c.overflooded c.self } := by
      have h3 : ¬ (499 ≤ c.out.length) := by omega
      simp [outLoopCheck, outLoopBranch, queueBufferSize, h3, h1]
    rw [hc]
    exact ⟨rfl, mem_overfloodedInsert _ _⟩
  · intro h1
    have hc : outLoopCheck E c
        = .next { c with overflooded := overfloodedDelete c.overflooded c.self } := by
      have h3 : ¬ (499 ≤ c.out.length) := by omega
      have h4 : ¬ (250 < c.out.length) := by omega
      simp [outLoopCheck, outLoopBranch, queueBufferSize, h3, h4]
    rw [hc]
    refine ⟨rfl, not_mem_overfloodedDelete _ _, ?_⟩
    intro h5
    rw [overfloodedDelete_of_not_mem _ _ h5]

theorem outLoop_depth_cases_witness :
    ((outLoopIter sampleEnv (loadedChannel 499)
          = .done (closeChannel sampleEnv (loadedChannel 499) [Error.ErrorSocketOverflood]).1
              (.returned none) ∧
        (outLoopIter sampleEnv (loadedChannel 499)).state.connWritten
          = (loadedChannel 499).connWritten ∧
        (outLoopIter sampleEnv (loadedChannel 499)).state.alive = false ∧
        ((loadedChannel 499).self ∈ (outLoopIter sampleEnv (loadedChannel 499)).state.overflooded
          → (loadedChannel 499).self ∈ (loadedChannel 499).overflooded))) ∧
    (outLoopCheck sampleEnv (loadedChannel 251)
          = .next { loadedChannel 251 with
              overflooded := overfloodedInsert (loadedChannel 251).overflooded
                (loadedChannel 251).self } ∧
        (loadedChannel 251).self ∈ (outLoopCheck sampleEnv (loadedChannel 251)).state.overflooded) ∧
    (outLoopCheck sampleEnv (loadedChannel 250)
          = .next { loadedChannel 250 with
              overflooded := overfloodedDelete (loadedChannel 250).overflooded
                (loadedChannel 250).self } ∧
        (loadedChannel 250).self ∉ (outLoopCheck sampleEnv (loadedChannel 250)).state.overflooded ∧
        ((loadedChannel 250).self ∉ (loadedChannel 250).overflooded
          → outLoopCheck sampleEnv (loadedChannel 250) = .next (loadedChannel 250))) :=
  ⟨(outLoop_depth_cases sampleEnv (loadedChannel 499)).2.1
      (by rw [loadedChannel_out_length]),
   (outLoop_depth_cases sampleEnv (loadedChannel 251)).2.2.1
      (by rw [loadedChannel_out_length]; decide) (by rw [loadedChannel_out_length]; decide),
   (outLoop_depth_cases sampleEnv (loadedChannel 250)).2.2.2.1
      (by rw [loadedChannel_out_length])⟩

/-! ## What each iteration leaves untouched -/

theorem closeChannel_snd (E : Env) (c : State) (args : List Error) :
    (closeChannel E c args).2 = none := by
  unfold closeChannel; split <;> rfl

theorem closeChannel_self (E : Env) (c : State) (args : List Error) :
    (closeChannel E c args).1.self = c.self := by
  unfold closeChannel; split <;> rfl

theorem sendOut_some (c c2 : State) (m : String) (h : sendOut c m = some c2) :
    c2 = { c with out := c.out ++ [m] } := by
  unfold sendOut at h
  split at h
  · exact (Option.some.inj h).symm
  · exact absurd h (by simp)

theorem inLoopIter_connWritten (E : Env) (c : State) (r : ReadResult) :
    (inLoopIter E c r).state.connWritten = c.connWritten := by
  unfold inLoopIter
  cases r with
  | getMessageError err => simp [Iter.state, closeChannel_connWritten]
  | decodeError err => simp [Iter.state, closeChannel_connWritten]
  | decoded msg =>
    cases hT : msg.Type_ <;> simp only [hT]
    · cases hs : sliceFromOne msg.Source <;> simp only [hs]
      · rfl
      · cases hu : E.unmarshalErr _ <;>
          simp [Iter.state, callLoopEvent, closeChannel_connWritten]
    · split <;> [(split <;> [rfl; (split <;> rfl)]); rfl]
    · cases hs : sendOut _ E.PongMessage with
      | none => rfl
      | some c2 => rw [sendOut_some _ _ _ hs]; rfl
    · rfl
    · split <;> [(split <;> [rfl; (split <;> rfl)]); rfl]

theorem inLoopIter_alive_false (E : Env) (c : State) (r : ReadResult) (h : c.alive = false) :
    (inLoopIter E c r).state.alive = false := by
  unfold inLoopIter
  cases r with
  | getMessageError err => simp [Iter.state, closeChannel_alive]
  | decodeError err => simp [Iter.state, closeChannel_alive]
  | decoded msg =>
    cases hT : msg.Type_ <;> simp only [hT]
    · cases hs : sliceFromOne msg.Source <;> simp only [hs]
      · exact h
      · cases hu : E.unmarshalErr _ <;>
          simp [Iter.state, callLoopEvent, closeChannel_alive, h]
    · split <;> [(split <;> [exact h; (split <;> exact h)]); exact h]
    · cases hs : sendOut _ E.PongMessage with
      | none => exact h
      | some c2 => rw [sendOut_some _ _ _ hs]; exact h
    · exact h
    · split <;> [(split <;> [exact h; (split <;> exact h)]); exact h]

theorem workerLoopIter_frame (c : State) :
    (workerLoopIter c).state.connWritten = c.connWritten ∧
    (workerLoopIter c).state.alive = c.alive ∧
    (workerLoopIter c).state.out = c.out ∧
    (workerLoopIter c).state.self = c.self ∧
    (workerLoopIter c).state.overflooded = c.overflooded ∧
    (workerLoopIter c).state.inClosed = c.inClosed ∧
    (workerLoopIter c).state.sequentialInLoop = c.sequentialInLoop := by
  unfold workerLoopIter
  split
  · simp [Iter.state]
  · split <;> simp [Iter.state]

theorem pingerIter_frame (E : Env) (c : State) :
    (pingerIter E c).state.connWritten = c.connWritten ∧
    (pingerIter E c).state.alive = c.alive ∧
    (pingerIter E c).state.self = c.self ∧
    (pingerIter E c).state.overflooded = c.overflooded ∧
    (pingerIter E c).state.inClosed = c.inClosed ∧
    (pingerIter E c).state.inQueue = c.inQueue ∧
    (pingerIter E c).state.processed = c.processed ∧
    (pingerIter E c).state.sequentialInLoop = c.sequentialInLoop ∧
    (c.alive = false → (pingerIter E c).state.out = c.out) := by
  unfold pingerIter IsAlive sendOut
  cases ha : c.alive
  · simp [Iter.state, ha]
  · by_cases hl : c.out.length < queueBufferSize <;> simp [Iter.state, ha, hl]

/-- Once `outLoop` has ended and the channel is closed, no step writes to the
transport, reopens the channel or restarts the loop. -/
theorem step_after_outLoopEnd (E : Env) (t : Task) (y : Sys) (o : Outcome)
    (h : y.outLoopEnd = some o) (ha : y.c.alive = false) :
    (step E t y).outLoopEnd = some o ∧ (step E t y).c.connWritten = y.c.connWritten ∧
    (step E t y).c.alive = false := by
  cases t with
  | inLoop =>
    unfold step
    cases hp : y.pending with
    | nil => cases hi : y.inLoopEnd <;> simp [h, ha]
    | cons r rest =>
      cases hi : y.inLoopEnd with
      | some _ => simp [h, ha]
      | none =>
        have h1 := inLoopIter_connWritten E y.c r
        have h2 := inLoopIter_alive_false E y.c r ha
        cases hit : inLoopIter E y.c r with
        | next c => rw [hit] at h1 h2; simp [Iter.state] at h1 h2; simp [hit, h, ha, h1, h2]
        | done c o2 =>
          rw [hit] at h1 h2; simp [Iter.state] at h1 h2
          cases o2 <;> simp [hit, h, ha, h1, h2]
  | workerLoop =>
    unfold step
    cases hi : y.workerLoopEnd with
    | some _ => simp [h, ha]
    | none =>
      have h1 := workerLoopIter_frame y.c
      cases hit : workerLoopIter y.c with
      | next c => rw [hit] at h1; simp [Iter.state] at h1; simp [hit, h, ha, h1]
      | done c o2 =>
        rw [hit] at h1; simp [Iter.state] at h1
        cases o2 <;> simp [hit, h, ha, h1]
  | outLoop => simp [step, h, ha]
  | pinger =>
    unfold step
    cases hi : y.pingerEnd with
    | some _ => simp [h, ha]
    | none =>
      have h1 := pingerIter_frame E y.c
      cases hit : pingerIter E y.c with
      | next c => rw [hit] at h1; simp [Iter.state] at h1; simp [hit, h, ha, h1]
      | done c o2 =>
        rw [hit] at h1; simp [Iter.state] at h1
        cases o2 <;> simp [hit, h, ha, h1]
  | close args =>
    simp [step, h, closeChannel_connWritten, closeChannel_alive]

theorem run_after_outLoopEnd (E : Env) (sched : List Task) (y : Sys) (o : Outcome)
    (h : y.outLoopEnd = some o) (ha : y.c.alive = false) :
    (run E sched y).outLoopEnd = some o ∧ (run E sched y).c.connWritten = y.c.connWritten ∧
    (run E sched y).c.alive = false := by
  induction sched generalizing y with
  | nil => exact ⟨h, rfl, ha⟩
  | cons t rest ih =>
    have hs := step_after_outLoopEnd E t y o h ha
    have := ih (step E t y) hs.1 hs.2.2
    simp only [run]
    exact ⟨this.1, this.2.1.trans hs.2.1, this.2.2⟩

theorem outLoop_of_overflow (E : Env) (c : State) (fuel : Nat)
    (h : queueBufferSize - 1 ≤ c.out.length) :
    outLoop E (fuel + 1) c
      = some ⟨(closeChannel E c [Error.ErrorSocketOverflood]).1, .returned none⟩ := by
  simp [outLoop, outLoopIter, outLoopCheck_overflow E c h]

theorem run_cons (E : Env) (t : Task) (rest : List Task) (y : Sys) :
    run E (t :: rest) y = run E rest (step E t y) := rfl

theorem step_inLoop_shape (E : Env) (y : Sys) :
    step E Task.inLoop y = y ∨
    ∃ r rest e, y.pending = r :: rest ∧
      step E Task.inLoop y
        = { y with c := (inLoopIter E y.c r).state, pending := rest, inLoopEnd := e,
                   readLog := y.readLog ++ [(r, y.c.alive)] } := by
  cases hp : y.pending with
  | nil => left; cases hi : y.inLoopEnd <;> simp [step, hi, hp]
  | cons r rest =>
    cases hi : y.inLoopEnd with
    | some o => left; simp [step, hi, hp]
    | none =>
      cases hit : inLoopIter E y.c r with
      | next c2 => exact Or.inr ⟨r, rest, none, rfl, by simp [step, hi, hp, hit, Iter.state]⟩
      | done c2 o =>
        cases o with
        | blocked => left; simp [step, hi, hp, hit]
        | returned e =>
          exact Or.inr ⟨r, rest, some (.returned e), rfl,
            by simp [step, hi, hp, hit, Iter.state]⟩
        | sendOnClosedChannel =>
          exact Or.inr ⟨r, rest, some .sendOnClosedChannel, rfl,
            by simp [step, hi, hp, hit, Iter.state]⟩
        | sliceOutOfRange =>
          exact Or.inr ⟨r, rest, some .sliceOutOfRange, rfl,
            by simp [step, hi, hp, hit, Iter.state]⟩

theorem step_workerLoop_shape (E : Env) (y : Sys) :
    step E Task.workerLoop y = y ∨
    ∃ e, step E Task.workerLoop y
      = { y with c := (workerLoopIter y.c).state, workerLoopEnd := e } := by
  cases hw : y.workerLoopEnd with
  | some o => left; simp [step, hw]
  | none =>
    cases hit : workerLoopIter y.c with
    | next c2 => exact Or.inr ⟨none, by simp [step, hw, hit, Iter.state]⟩
    | done c2 o =>
      cases o with
      | blocked => left; simp [step, hw, hit]
      | returned e => exact Or.inr ⟨some (.returned e), by simp [step, hw, hit, Iter.state]⟩
      | sendOnClosedChannel =>
        exact Or.inr ⟨some .sendOnClosedChannel, by simp [step, hw, hit, Iter.state]⟩
      | sliceOutOfRange =>
        exact Or.inr ⟨some .sliceOutOfRange, by simp [step, hw, hit, Iter.state]⟩

theorem step_pinger_shape (E : Env) (y : Sys) :
    step E Task.pinger y = y ∨
    ∃ e, step E Task.pinger y
      = { y with c := (pingerIter E y.c).state, pingerEnd := e } := by
  cases hw : y.pingerEnd with
  | some o => left; simp [step, hw]
  | none =>
    cases hit : pingerIter E y.c with
    | next c2 => exact Or.inr ⟨none, by simp [step, hw, hit, Iter.state]⟩
    | done c2 o =>
      cases o with
      | blocked => left; simp [step, hw, hit]
      | returned e => exact Or.inr ⟨some (.returned e), by simp [step, hw, hit, Iter.state]⟩
      | sendOnClosedChannel =>
        exact Or.inr ⟨some .sendOnClosedChannel, by simp [step, hw, hit, Iter.state]⟩
      | sliceOutOfRange =>
        exact Or.inr ⟨some .sliceOutOfRange, by simp [step, hw, hit, Iter.state]⟩

/-- A step of a task other than `outLoop` leaves `outLoop` where it stands and
writes nothing to the transport. -/
theorem step_other_frame (E : Env) (t : Task) (y : Sys) (ht : t ≠ Task.outLoop) :
    (step E t y).outLoopEnd = y.outLoopEnd ∧ (step E t y).outLoopPc = y.outLoopPc ∧
    (step E t y).lastObserved = y.lastObserved ∧
    (step E t y).c.connWritten = y.c.connWritten := by
  cases t with
  | outLoop => exact absurd rfl ht
  | inLoop =>
    rcases step_inLoop_shape E y with hs | ⟨r, rest, e, _, hs⟩
    · rw [hs]; exact ⟨rfl, rfl, rfl, rfl⟩
    · rw [hs]; exact ⟨rfl, rfl, rfl, inLoopIter_connWritten E y.c r⟩
  | workerLoop =>
    rcases step_workerLoop_shape E y with hs | ⟨e, hs⟩
    · rw [hs]; exact ⟨rfl, rfl, rfl, rfl⟩
    · rw [hs]; exact ⟨rfl, rfl, rfl, (workerLoopIter_frame y.c).1⟩
  | pinger =>
    rcases step_pinger_shape E y with hs | ⟨e, hs⟩
    · rw [hs]; exact ⟨rfl, rfl, rfl, rfl⟩
    · rw [hs]; exact ⟨rfl, rfl, rfl, (pingerIter_frame E y.c).1⟩
  | close args => exact ⟨rfl, rfl, rfl, closeChannel_connWritten E y.c args⟩

/-- From the moment `outLoop` has read a depth of capacity - 1 or more, no step
of any goroutine writes to the transport, and the next step of `outLoop`
closes the channel and ends the loop. -/
theorem run_overflow_observed (E : Env) (sched : List Task) (y : Sys) (d : Nat)
    (he : y.outLoopEnd = none) (hpc : y.outLoopPc = .branch d)
    (hd : queueBufferSize - 1 ≤ d) :
    (run E sched y).c.connWritten = y.c.connWritten ∧
    (Task.outLoop ∈ sched →
      (run E sched y).outLoopEnd = some (.returned none) ∧ (run E sched y).c.alive = false) := by
  induction sched generalizing y with
  | nil => exact ⟨rfl, fun h => absurd h (by simp)⟩
  | cons t rest ih =>
    by_cases ht : t = Task.outLoop
    · subst ht
      have hs : step E Task.outLoop y
          = { y with c := (closeChannel E y.c [Error.ErrorSocketOverflood]).1,
                     outLoopEnd := some (.returned none), outLoopPc := .recv } := by
        simp [step, he, hpc, outLoopBranch_overflow E y.c d hd]
      have hr := run_after_outLoopEnd E rest (step E Task.outLoop y) (.returned none)
        (by rw [hs]) (by rw [hs]; exact closeChannel_alive E y.c _)
      rw [run_cons]
      refine ⟨hr.2.1.trans ?_, fun _ => ⟨hr.1, hr.2.2⟩⟩
      rw [hs]
      exact closeChannel_connWritten E y.c _
    · obtain ⟨f1, f2, _, f4⟩ := step_other_frame E t y ht
      have := ih (step E t y) (f1.trans he) (f2.trans hpc)
      rw [run_cons]
      refine ⟨this.1.trans f4, fun hm => this.2 ?_⟩
      rcases List.mem_cons.1 hm with h | h
      · exact absurd h.symm ht
      · exact h

/-- C5: once an outLoop iteration observes the overflow condition (outbound
depth >= capacity - 1) the loop runs closeChannel with the overflow cause and
returns: the channel is not alive and nothing was written in that iteration.
In the interleaved system, from the step in which outLoop reads such a depth
on, under every schedule of the goroutines (other goroutines may run between
the read and the closing), the transport's write log stays as it was; and as
soon as outLoop takes its next step it has ended with nil and the channel is
closed, and both stay so. In particular, started on a live channel with 500
buffered frames and nothing written yet, outLoop returns with the channel
closed and 0 (hence fewer than 500) transport writes. -/
theorem outLoop_overflow_stops_writes (E : Env) :
    (∀ (c : State) (fuel : Nat), queueBufferSize - 1 ≤ c.out.length →
        outLoop E (fuel + 1) c
          = some ⟨(closeChannel E c [Error.ErrorSocketOverflood]).1, .returned none⟩ ∧
        (closeChannel E c [Error.ErrorSocketOverflood]).1.alive = false ∧
        (closeChannel E c [Error.ErrorSocketOverflood]).1.connWritten = c.connWritten) ∧
    (∀ (y : Sys) (sched later : List Task), y.outLoopEnd = none →
        y.outLoopPc = OutPc.check → queueBufferSize - 1 ≤ y.c.out.length →
        (run E (Task.outLoop :: sched) y).c.connWritten = y.c.connWritten ∧
        (run E (Task.outLoop :: (sched ++ Task.outLoop :: later)) y).outLoopEnd
          = some (.returned none) ∧
        (run E (Task.outLoop :: (sched ++ Task.outLoop :: later)) y).c.alive = false ∧
        (run E (Task.outLoop :: (sched ++ Task.outLoop :: later)) y).c.connWritten
          = y.c.connWritten) ∧
    (∀ (c : State) (fuel : Nat), c.alive = true → c.out.length = queueBufferSize →
        c.connWritten = [] →
        ∃ r, outLoop E (fuel + 1) c = some r ∧ r.outcome = .returned none ∧
          r.state = (closeChannel E c [Error.ErrorSocketOverflood]).1 ∧
          r.state.alive = false ∧ r.state.out = [E.CloseMessage] ∧
          r.state.connWritten.length = 0 ∧ r.state.connWritten.length < 500) := by
  refine ⟨?_, ?_, ?_⟩
  · intro c fuel h
    exact ⟨outLoop_of_overflow E c fuel h, closeChannel_alive E c _,
      closeChannel_connWritten E c _⟩
  · intro y sched later h1 h2 h3
    have hs : step E Task.outLoop y
        = { y with outLoopPc := .branch y.c.out.length,
                   lastObserved := some y.c.out.length } := by
      simp [step, h1, h2]
    have hA := run_overflow_observed E sched (step E Task.outLoop y) y.c.out.length
      (by rw [hs]; exact h1) (by rw [hs]) h3
    have hB := run_overflow_observed E (sched ++ Task.outLoop :: later)
      (step E Task.outLoop y) y.c.out.length (by rw [hs]; exact h1) (by rw [hs]) h3
    have hw : (step E Task.outLoop y).c.connWritten = y.c.connWritten := by rw [hs]
    have hm : Task.outLoop ∈ sched ++ Task.outLoop :: later := by simp
    rw [run_cons, run_cons]
    exact ⟨hA.1.trans hw, (hB.2 hm).1, (hB.2 hm).2, hB.1.trans hw⟩
  · intro c fuel ha hl hw
    refine ⟨_, outLoop_of_overflow E c fuel (by rw [hl]; decide), rfl, rfl,
      closeChannel_alive E c _, ?_, ?_, ?_⟩
    · rw [closeChannel_of_alive E c _ ha]
    · show (closeChannel E c [Error.ErrorSocketOverflood]).1.connWritten.length = 0
      rw [closeChannel_connWritten, hw]; rfl
    · show (closeChannel E c [Error.ErrorSocketOverflood]).1.connWritten.length < 500
      rw [closeChannel_connWritten, hw]; decide

theorem outLoop_overflow_stops_writes_witness :
    (outLoop sampleEnv (0 + 1) (loadedChannel 499)
          = some ⟨(closeChannel sampleEnv (loadedChannel 499) [Error.ErrorSocketOverflood]).1,
              .returned none⟩ ∧
        (closeChannel sampleEnv (loadedChannel 499) [Error.ErrorSocketOverflood]).1.alive = false ∧
        (closeChannel sampleEnv (loadedChannel 499) [Error.ErrorSocketOverflood]).1.connWritten
          = (loadedChannel 499).connWritten) ∧
    ((run sampleEnv (Task.outLoop :: [Task.pinger, Task.inLoop])
          (Sys.start (loadedChannel 499) [pingFrame])).c.connWritten
          = (Sys.start (loadedChannel 499) [pingFrame]).c.connWritten ∧
        (run sampleEnv (Task.outLoop :: ([Task.pinger, Task.inLoop] ++ Task.outLoop :: [Task.outLoop]))
          (Sys.start (loadedChannel 499) [pingFrame])).outLoopEnd = some (.returned none) ∧
        (run sampleEnv (Task.outLoop :: ([Task.pinger, Task.inLoop] ++ Task.outLoop :: [Task.outLoop]))
          (Sys.start (loadedChannel 499) [pingFrame])).c.alive = false ∧
        (run sampleEnv (Task.outLoop :: ([Task.pinger, Task.inLoop] ++ Task.outLoop :: [Task.outLoop]))
          (Sys.start (loadedChannel 499) [pingFrame])).c.connWritten
          = (Sys.start (loadedChannel 499) [pingFrame]).c.connWritten) ∧
    (∃ r, outLoop sampleEnv (0 + 1) (loadedChannel 500) = some r ∧ r.outcome = .returned none ∧
          r.state = (closeChannel sampleEnv (loadedChannel 500) [Error.ErrorSocketOverflood]).1 ∧
          r.state.alive = false ∧ r.state.out = [sampleEnv.CloseMessage] ∧
          r.state.connWritten.length = 0 ∧ r.state.connWritten.length < 500) :=
  ⟨(outLoop_overflow_stops_writes sampleEnv).1 (loadedChannel 499) 0
      (by rw [loadedChannel_out_length]; decide),
   (outLoop_overflow_stops_writes sampleEnv).2.1 (Sys.start (loadedChannel 499) [pingFrame])
      [Task.pinger, Task.inLoop] [Task.outLoop] rfl rfl
      (by show queueBufferSize - 1 ≤ (loadedChannel 499).out.length
          rw [loadedChannel_out_length]; decide),
   (outLoop_overflow_stops_writes sampleEnv).2.2 (loadedChannel 500) 0 rfl
      (by rw [loadedChannel_out_length]; rfl) rfl⟩

/-! ## `inLoop` -/

theorem closeChannel_header (E : Env) (c : State) (args : List Error) :
    (closeChannel E c args).1.header = c.header := by
  unfold closeChannel; split <;> rfl

theorem inLoopIter_header_of_not_open (E : Env) (c : State) (r : ReadResult)
    (h : isOpen r = false) : (inLoopIter E c r).state.header = c.header := by
  unfold inLoopIter
  cases r with
  | getMessageError err => simp [Iter.state, closeChannel_header]
  | decodeError err => simp [Iter.state, closeChannel_header]
  | decoded msg =>
    cases hT : msg.Type_ <;> simp only [hT]
    · simp [isOpen, hT] at h
    · split <;> [(split <;> [rfl; (split <;> rfl)]); rfl]
    · cases hs : sendOut _ E.PongMessage with
      | none => rfl
      | some c2 => rw [sendOut_some _ _ _ hs]; rfl
    · rfl
    · split <;> [(split <;> [rfl; (split <;> rfl)]); rfl]

theorem inLoop_header_of_no_open (E : Env) (frames : List ReadResult) (c : State)
    (h : ∀ r ∈ frames, isOpen r = false) : (inLoop E frames c).state.header = c.header := by
  induction frames generalizing c with
  | nil => rfl
  | cons r rest ih =>
    have h1 := inLoopIter_header_of_not_open E c r (h r (List.mem_cons_self _ _))
    have h2 : ∀ x ∈ rest, isOpen x = false := fun x hx => h x (List.mem_cons_of_mem _ hx)
    unfold inLoop
    cases hit : inLoopIter E c r with
    | next c2 =>
      rw [hit] at h1
      simp only []
      rw [ih c2 h2]
      exact h1
    | done c2 o =>
      rw [hit] at h1
      exact h1

/-- C3 (the code at the failing input): on a fresh channel, inLoop is given an
Open frame whose handshake payload does not parse, followed by a Ping frame.
It closes the channel but does not stop: OnConnection is fired after
OnDisconnection for that very frame, GetMessage is called a second time, and
the Ping frame is answered with a Pong put behind the Close sentinel; the loop
is then waiting for a third frame. -/
theorem inLoop_malformed_open_goes_on :
    (inLoop sampleEnv [openMalformed, pingFrame] freshChannel).state.alive = false ∧
    (inLoop sampleEnv [openMalformed, pingFrame] freshChannel).state.events
      = [LoopEvent.OnDisconnection, LoopEvent.OnConnection] ∧
    (inLoop sampleEnv [openMalformed, pingFrame] freshChannel).state.connGetMessageCalls = 2 ∧
    (inLoop sampleEnv [openMalformed, pingFrame] freshChannel).state.out
      = [sampleEnv.CloseMessage, sampleEnv.PongMessage] ∧
    (inLoop sampleEnv [openMalformed, pingFrame] freshChannel).outcome = Outcome.blocked := by
  decide

/-- C10 (the code at the failing input): with sequentialInLoop set, inLoop is
given an Open frame whose handshake payload does not parse, followed by a data
frame. The first frame closes the channel (alive false, inbound queue closed)
and the loop goes on; on the second frame it reaches the send on the inbound
queue with the queue closed, which is the send-on-closed-channel panic. -/
theorem inLoop_sends_on_closed_queue :
    (inLoopIter sampleEnv sequentialChannel openMalformed).state.alive = false ∧
    (inLoopIter sampleEnv sequentialChannel openMalformed).state.inClosed = true ∧
    (∃ c, inLoopIter sampleEnv sequentialChannel openMalformed = Iter.next c) ∧
    (inLoop sampleEnv [openMalformed, dataFrame "m"] sequentialChannel).outcome
      = Outcome.sendOnClosedChannel := by
  refine ⟨by decide, by decide, ⟨_, rfl⟩, by decide⟩

/-- C8 (counterexample): after a first Open frame has populated the header, so
that Id() returns its sid "abc", a second Open frame changes the header: Id()
then returns "xyz". -/
theorem header_overwritten_by_second_open :
    Id (inLoop sampleEnv [openAbc] freshChannel).state = "abc" ∧
    Id (inLoop sampleEnv [openAbc, openXyz] freshChannel).state = "xyz" ∧
    (inLoop sampleEnv [openAbc, openXyz] freshChannel).state.header
      ≠ (inLoop sampleEnv [openAbc] freshChannel).state.header := by
  decide

/-- C8 (amended): the header is changed by Open frames only, and by each of
them. For every sequence of read results without an Open frame, inLoop leaves
the header as it was; and on every Open frame, the first or a later one, the
header after the iteration is what json.Unmarshal leaves when given the frame's
payload (the source without its first byte) and the header held so far. -/
theorem header_written_by_every_open (E : Env) :
    (∀ (frames : List ReadResult) (c : State), (∀ r ∈ frames, isOpen r = false) →
        (inLoop E frames c).state.header = c.header) ∧
    (∀ (c : State) (msg : Message) (data : String), msg.Type_ = MessageType.Open →
        sliceFromOne msg.Source = some data →
        (inLoopIter E c (.decoded msg)).state.header = E.unmarshalInto data c.header) := by
  refine ⟨fun frames c h => inLoop_header_of_no_open E frames c h, ?_⟩
  intro c msg data hT hs
  unfold inLoopIter
  simp only [hT, hs]
  cases hu : E.unmarshalErr data <;> simp [Iter.state, callLoopEvent, closeChannel_header]

theorem header_written_by_every_open_witness :
    (inLoop sampleEnv [pingFrame, dataFrame "m", .decodeError Error.ErrorWrongPacket]
        freshChannel).state.header = freshChannel.header ∧
    (inLoopIter sampleEnv (inLoop sampleEnv [openAbc] freshChannel).state
        (.decoded ⟨.Open, "", "0\x7b\"sid\":\"xyz\"\x7d"⟩)).state.header
      = sampleEnv.unmarshalInto "\x7b\"sid\":\"xyz\"\x7d"
          (inLoop sampleEnv [openAbc] freshChannel).state.header :=
  ⟨(header_written_by_every_open sampleEnv).1
      [pingFrame, dataFrame "m", .decodeError Error.ErrorWrongPacket] freshChannel (by decide),
   (header_written_by_every_open sampleEnv).2 (inLoop sampleEnv [openAbc] freshChannel).state
      ⟨.Open, "", "0\x7b\"sid\":\"xyz\"\x7d"⟩ "\x7b\"sid\":\"xyz\"\x7d" rfl (by decide)⟩

/-! ## The inbound side: `inLoop` feeding `workerLoop` -/

theorem dataBeforeClose_append (l1 l2 : List (ReadResult × Bool)) :
    dataBeforeClose (l1 ++ l2) = dataBeforeClose l1 ++ dataBeforeClose l2 := by
  induction l1 with
  | nil => rfl
  | cons x rest ih => simp [dataBeforeClose, ih]

theorem dataOf_not_alive (r : ReadResult) : dataOf (r, false) = [] := by
  cases r <;> rfl

theorem dataBeforeClose_singleton (x : ReadResult × Bool) :
    dataBeforeClose [x] = dataOf x := by
  simp [dataBeforeClose]

theorem queueFrame_refl (c : State) : QueueFrame c c :=
  ⟨rfl, rfl, rfl, id, id⟩

theorem closeChannel_queueFrame (E : Env) (c : State) (args : List Error) :
    QueueFrame c (closeChannel E c args).1 := by
  cases ha : c.alive
  · rw [closeChannel_of_not_alive E c args ha]; exact queueFrame_refl c
  · rw [closeChannel_of_alive E c args ha]
    exact ⟨rfl, rfl, rfl, fun _ => rfl, fun _ => rfl⟩

theorem queueFrame_trans {a b c : State} (h1 : QueueFrame a b) (h2 : QueueFrame b c) :
    QueueFrame a c :=
  ⟨h2.1.trans h1.1, h2.2.1.trans h1.2.1, h2.2.2.1.trans h1.2.2.1,
   fun h => h2.2.2.2.1 (h1.2.2.2.1 h), fun h => h2.2.2.2.2 (h1.2.2.2.2 h)⟩

theorem outLoopBranch_queueFrame (E : Env) (c : State) (d : Nat) :
    QueueFrame c (outLoopBranch E c d).state := by
  unfold outLoopBranch
  split
  · exact closeChannel_queueFrame E c _
  · split <;> exact ⟨rfl, rfl, rfl, id, id⟩

theorem outLoopRecv_queueFrame (E : Env) (c : State) :
    QueueFrame c (outLoopRecv E c).state := by
  unfold outLoopRecv
  cases ho : c.out with
  | nil => exact queueFrame_refl c
  | cons msg rest =>
    simp only []
    split
    · exact ⟨rfl, rfl, rfl, id, id⟩
    · have hw : QueueFrame c (WriteMessage { c with out := rest } msg).1 := by
        unfold WriteMessage
        simp only []
        split <;> exact ⟨rfl, rfl, rfl, id, id⟩
      split
      · exact queueFrame_trans hw (closeChannel_queueFrame E _ _)
      · exact hw

theorem pingerIter_queueFrame (E : Env) (c : State) :
    QueueFrame c (pingerIter E c).state := by
  have h := pingerIter_frame E c
  refine ⟨h.2.2.2.2.2.1, h.2.2.2.2.2.2.1, h.2.2.2.2.2.2.2.1, ?_, ?_⟩
  · intro hc; rw [h.2.2.2.2.1, h.2.1]; exact hc
  · intro hc; rw [h.2.1]; exact hc

/-- Effect of an `inLoop` iteration on the inbound side in sequential mode:
unless it is suspended on a full queue, it appends the data message of the
read result, if the channel is alive and it is one, and nothing else. -/
theorem inLoopIter_queue (E : Env) (c : State) (r : ReadResult)
    (hseq : c.sequentialInLoop = true) (hcl : c.inClosed = !c.alive) :
    (∃ c2, inLoopIter E c r = .done c2 .blocked) ∨
    ((inLoopIter E c r).state.inClosed = (!(inLoopIter E c r).state.alive) ∧
     (inLoopIter E c r).state.sequentialInLoop = true ∧
     (inLoopIter E c r).state.processed = c.processed ∧
     (inLoopIter E c r).state.inQueue = c.inQueue ++ dataOf (r, c.alive)) := by
  cases ha : c.alive <;> rw [ha] at hcl <;> simp only [Bool.not_false, Bool.not_true] at hcl
  · -- the channel is closed
    cases r with
    | getMessageError err =>
      right
      simp [inLoopIter, Iter.state, closeChannel, ha, hcl, hseq, dataOf]
    | decodeError err =>
      right
      simp [inLoopIter, Iter.state, closeChannel, ha, hcl, hseq, dataOf]
    | decoded msg =>
      cases hT : msg.Type_
      · right
        cases hs : sliceFromOne msg.Source with
        | none => simp [inLoopIter, Iter.state, hT, hs, ha, hcl, hseq, dataOf]
        | some data =>
          cases hu : E.unmarshalErr data <;>
            simp [inLoopIter, Iter.state, hT, hs, hu, closeChannel, callLoopEvent, ha, hcl, hseq,
              dataOf]
      · right; simp [inLoopIter, Iter.state, hT, ha, hcl, hseq, dataOf]
      · by_cases hl : c.out.length < queueBufferSize
        · right; simp [inLoopIter, Iter.state, hT, sendOut, hl, ha, hcl, hseq, dataOf]
        · left; simp [inLoopIter, hT, sendOut, hl]
      · right; simp [inLoopIter, Iter.state, hT, ha, hcl, hseq, dataOf]
      · right; simp [inLoopIter, Iter.state, hT, ha, hcl, hseq, dataOf]
  · -- the channel is alive
    cases r with
    | getMessageError err =>
      right
      simp [inLoopIter, Iter.state, closeChannel, callLoopEvent, ha, hcl, hseq, dataOf]
    | decodeError err =>
      right
      simp [inLoopIter, Iter.state, closeChannel, callLoopEvent, ha, hcl, hseq, dataOf]
    | decoded msg =>
      cases hT : msg.Type_
      · right
        cases hs : sliceFromOne msg.Source with
        | none => simp [inLoopIter, Iter.state, hT, hs, ha, hcl, hseq, dataOf]
        | some data =>
          cases hu : E.unmarshalErr data <;>
            simp [inLoopIter, Iter.state, hT, hs, hu, closeChannel, callLoopEvent, ha, hcl, hseq,
              dataOf]
      · by_cases hl : c.inQueue.length < queueBufferSize
        · right; simp [inLoopIter, Iter.state, hT, hl, ha, hcl, hseq, dataOf]
        · left; simp [inLoopIter, hT, hl, hcl, hseq]
      · by_cases hl : c.out.length < queueBufferSize
        · right; simp [inLoopIter, Iter.state, hT, sendOut, hl, ha, hcl, hseq, dataOf]
        · left; simp [inLoopIter, hT, sendOut, hl]
      · right; simp [inLoopIter, Iter.state, hT, ha, hcl, hseq, dataOf]
      · by_cases hl : c.inQueue.length < queueBufferSize
        · right; simp [inLoopIter, Iter.state, hT, hl, ha, hcl, hseq, dataOf]
        · left; simp [inLoopIter, hT, hl, hcl, hseq]

/-- A step that replaces the channel state by one that frames the inbound side,
and touches neither the pending frames, the read log nor the end of
`workerLoop`, keeps the invariant of the inbound side. -/
theorem queueInv_of_frame {frames : List ReadResult} {y z : Sys} (h : QueueInv frames y)
    (hc : QueueFrame y.c z.c) (hp : z.pending = y.pending) (hl : z.readLog = y.readLog)
    (hw : z.workerLoopEnd = y.workerLoopEnd) : QueueInv frames z := by
  obtain ⟨h1, h2, h3, h4, h5⟩ := h
  obtain ⟨f1, f2, f3, f4, f5⟩ := hc
  refine ⟨f4 h1, by rw [f3, h2], by rw [f1, f2, hl, h3], by rw [hl, hp, h4], ?_⟩
  intro o ho
  rw [hw] at ho
  obtain ⟨e1, e2, e3⟩ := h5 o ho
  refine ⟨e1, by rw [f1, e2], ?_⟩
  have ha : y.c.alive = false := by
    rw [e3] at h1
    cases hy : y.c.alive
    · rfl
    · rw [hy] at h1; exact absurd h1 (by decide)
  rw [f4 h1, f5 ha]; rfl

theorem step_workerLoop_cons (E : Env) (y : Sys) (m : Message) (rest : List Message)
    (hw : y.workerLoopEnd = none) (hq : y.c.inQueue = m :: rest) :
    step E Task.workerLoop y
      = { y with c := { y.c with inQueue := rest, processed := y.c.processed ++ [m] } } := by
  simp [step, hw, workerLoopIter, hq]

theorem step_workerLoop_closed (E : Env) (y : Sys)
    (hw : y.workerLoopEnd = none) (hq : y.c.inQueue = []) (hc : y.c.inClosed = true) :
    step E Task.workerLoop y = { y with workerLoopEnd := some (.returned none) } := by
  simp [step, hw, workerLoopIter, hq, hc]

theorem step_workerLoop_waiting (E : Env) (y : Sys)
    (hq : y.c.inQueue = []) (hc : y.c.inClosed = false) :
    step E Task.workerLoop y = y := by
  cases hw : y.workerLoopEnd <;> simp [step, hw, workerLoopIter, hq, hc]

theorem step_queueInv (E : Env) (frames : List ReadResult) (t : Task) (y : Sys)
    (h : QueueInv frames y) : QueueInv frames (step E t y) := by
  cases t with
  | inLoop =>
    cases hp : y.pending with
    | nil =>
      have : step E Task.inLoop y = y := by
        cases hi : y.inLoopEnd <;> simp [step, hi, hp]
      rw [this]; exact h
    | cons r rest =>
      cases hi : y.inLoopEnd with
      | some o =>
        have : step E Task.inLoop y = y := by simp [step, hi, hp]
        rw [this]; exact h
      | none =>
        obtain ⟨h1, h2, h3, h4, h5⟩ := h
        rcases inLoopIter_queue E y.c r h2 h1 with ⟨c2, hb⟩ | ⟨q1, q2, q3, q4⟩
        · have : step E Task.inLoop y = y := by simp [step, hi, hp, hb]
          rw [this]; exact ⟨h1, h2, h3, h4, h5⟩
        · have hstep : ∃ e, step E Task.inLoop y
              = { y with c := (inLoopIter E y.c r).state, pending := rest, inLoopEnd := e,
                         readLog := y.readLog ++ [(r, y.c.alive)] } ∨
              step E Task.inLoop y = y := by
            cases hit : inLoopIter E y.c r with
            | next c2 => exact ⟨none, Or.inl (by simp [step, hi, hp, hit, Iter.state])⟩
            | done c2 o =>
              cases o with
              | blocked => exact ⟨none, Or.inr (by simp [step, hi, hp, hit])⟩
              | returned e =>
                exact ⟨some (.returned e), Or.inl (by simp [step, hi, hp, hit, Iter.state])⟩
              | sendOnClosedChannel =>
                exact ⟨some .sendOnClosedChannel,
                  Or.inl (by simp [step, hi, hp, hit, Iter.state])⟩
              | sliceOutOfRange =>
                exact ⟨some .sliceOutOfRange, Or.inl (by simp [step, hi, hp, hit, Iter.state])⟩
          obtain ⟨e, hs | hs⟩ := hstep
          · rw [hs]
            refine ⟨q1, q2, ?_, ?_, ?_⟩
            · show (inLoopIter E y.c r).state.processed ++ (inLoopIter E y.c r).state.inQueue
                = dataBeforeClose (y.readLog ++ [(r, y.c.alive)])
              rw [q3, q4, dataBeforeClose_append, dataBeforeClose_singleton, ← List.append_assoc, h3]
            · show (y.readLog ++ [(r, y.c.alive)]).map Prod.fst ++ rest = frames
              rw [← h4, hp]; simp
            · intro o ho
              obtain ⟨e1, e2, e3⟩ := h5 o ho
              have ha : y.c.alive = false := by
                rw [e3] at h1
                cases hy : y.c.alive
                · rfl
                · rw [hy] at h1; exact absurd h1 (by decide)
              have ha2 := inLoopIter_alive_false E y.c r ha
              refine ⟨e1, ?_, ?_⟩
              · show (inLoopIter E y.c r).state.inQueue = []
                rw [q4, e2, ha, dataOf_not_alive]; rfl
              · show (inLoopIter E y.c r).state.inClosed = true
                rw [q1, ha2]; rfl
          · rw [hs]; exact ⟨h1, h2, h3, h4, h5⟩
  | workerLoop =>
    cases hw : y.workerLoopEnd with
    | some o =>
      have : step E Task.workerLoop y = y := by simp [step, hw]
      rw [this]; exact h
    | none =>
      obtain ⟨h1, h2, h3, h4, h5⟩ := h
      cases hq : y.c.inQueue with
      | cons m rest =>
        rw [step_workerLoop_cons E y m rest hw hq]
        refine ⟨h1, h2, ?_, h4, ?_⟩
        · show (y.c.processed ++ [m]) ++ rest = dataBeforeClose y.readLog
          rw [← h3, hq]; simp
        · intro o ho
          exact absurd (hw ▸ ho : (none : Option Outcome) = some o) (by simp)
      | nil =>
        cases hc : y.c.inClosed with
        | false =>
          rw [step_workerLoop_waiting E y hq hc]; exact ⟨h1, h2, h3, h4, h5⟩
        | true =>
          rw [step_workerLoop_closed E y hw hq hc]
          refine ⟨h1, h2, h3, h4, ?_⟩
          intro o ho
          have : o = .returned none := by
            have : some (Outcome.returned none) = some o := ho
            exact (Option.some.inj this).symm
          exact ⟨this, hq, hc⟩
  | outLoop =>
    cases he : y.outLoopEnd with
    | some o =>
      have : step E Task.outLoop y = y := by simp [step, he]
      rw [this]; exact h
    | none =>
      cases hpc : y.outLoopPc with
      | check =>
        have : step E Task.outLoop y
            = { y with outLoopPc := .branch y.c.out.length,
                       lastObserved := some y.c.out.length } := by
          simp [step, he, hpc]
        rw [this]; exact queueInv_of_frame h (queueFrame_refl y.c) rfl rfl rfl
      | branch d =>
        have hf := outLoopBranch_queueFrame E y.c d
        cases hit : outLoopBranch E y.c d with
        | next c2 =>
          rw [hit] at hf
          have : step E Task.outLoop y = { y with c := c2, outLoopPc := .recv } := by
            simp [step, he, hpc, hit]
          rw [this]; exact queueInv_of_frame h hf rfl rfl rfl
        | done c2 o =>
          rw [hit] at hf
          have : step E Task.outLoop y
              = { y with c := c2, outLoopEnd := some o, outLoopPc := .recv } := by
            simp [step, he, hpc, hit]
          rw [this]; exact queueInv_of_frame h hf rfl rfl rfl
      | recv =>
        have hf := outLoopRecv_queueFrame E y.c
        cases hit : outLoopRecv E y.c with
        | next c2 =>
          rw [hit] at hf
          have : step E Task.outLoop y = { y with c := c2, outLoopPc := .check } := by
            simp [step, he, hpc, hit]
          rw [this]; exact queueInv_of_frame h hf rfl rfl rfl
        | done c2 o =>
          rw [hit] at hf
          cases o with
          | blocked =>
            have : step E Task.outLoop y = y := by simp [step, he, hpc, hit]
            rw [this]; exact h
          | returned e =>
            have : step E Task.outLoop y
                = { y with c := c2, outLoopEnd := some (.returned e) } := by
              simp [step, he, hpc, hit]
            rw [this]; exact queueInv_of_frame h hf rfl rfl rfl
          | sendOnClosedChannel =>
            have : step E Task.outLoop y
                = { y with c := c2, outLoopEnd := some .sendOnClosedChannel } := by
              simp [step, he, hpc, hit]
            rw [this]; exact queueInv_of_frame h hf rfl rfl rfl
          | sliceOutOfRange =>
            have : step E Task.outLoop y
                = { y with c := c2, outLoopEnd := some .sliceOutOfRange } := by
              simp [step, he, hpc, hit]
            rw [this]; exact queueInv_of_frame h hf rfl rfl rfl
  | pinger =>
    cases he : y.pingerEnd with
    | some o =>
      have : step E Task.pinger y = y := by simp [step, he]
      rw [this]; exact h
    | none =>
      have hf := pingerIter_queueFrame E y.c
      cases hit : pingerIter E y.c with
      | next c2 =>
        rw [hit] at hf
        have : step E Task.pinger y = { y with c := c2 } := by simp [step, he, hit]
        rw [this]; exact queueInv_of_frame h hf rfl rfl rfl
      | done c2 o =>
        rw [hit] at hf
        cases o with
        | blocked =>
          have : step E Task.pinger y = y := by simp [step, he, hit]
          rw [this]; exact h
        | returned e =>
          have : step E Task.pinger y = { y with c := c2, pingerEnd := some (.returned e) } := by
            simp [step, he, hit]
          rw [this]; exact queueInv_of_frame h hf rfl rfl rfl
        | sendOnClosedChannel =>
          have : step E Task.pinger y
              = { y with c := c2, pingerEnd := some .sendOnClosedChannel } := by
            simp [step, he, hit]
          rw [this]; exact queueInv_of_frame h hf rfl rfl rfl
        | sliceOutOfRange =>
          have : step E Task.pinger y
              = { y with c := c2, pingerEnd := some .sliceOutOfRange } := by
            simp [step, he, hit]
          rw [this]; exact queueInv_of_frame h hf rfl rfl rfl
  | close args =>
    have : step E (Task.close args) y = { y with c := (closeChannel E y.c args).1 } := rfl
    rw [this]; exact queueInv_of_frame h (closeChannel_queueFrame E y.c args) rfl rfl rfl

theorem run_queueInv (E : Env) (frames : List ReadResult) (sched : List Task) (y : Sys)
    (h : QueueInv frames y) : QueueInv frames (run E sched y) := by
  induction sched generalizing y with
  | nil => exact h
  | cons t rest ih => exact ih (step E t y) (step_queueInv E frames t y h)

theorem start_queueInv (c : State) (frames : List ReadResult) (h1 : c.alive = true)
    (h2 : c.inClosed = false) (h3 : c.sequentialInLoop = true) (h4 : c.inQueue = [])
    (h5 : c.processed = []) : QueueInv frames (Sys.start c frames) := by
  refine ⟨?_, h3, ?_, ?_, ?_⟩
  · show c.inClosed = !c.alive
    rw [h1, h2]; rfl
  · show c.processed ++ c.inQueue = dataBeforeClose []
    rw [h4, h5]; rfl
  · rfl
  · intro o ho
    exact absurd ho (by simp [Sys.start])

/-- On a closed inbound queue, `workerLoop` scheduled once more than there are
queued messages dispatches them all in order and returns nil. -/
theorem run_workerLoop_drains (E : Env) (q : List Message) (y : Sys)
    (hw : y.workerLoopEnd = none) (hc : y.c.inClosed = true) (hq : y.c.inQueue = q) :
    run E (List.replicate (q.length + 1) Task.workerLoop) y
      = { y with c := { y.c with inQueue := [], processed := y.c.processed ++ q },
                 workerLoopEnd := some (.returned none) } := by
  induction q generalizing y with
  | nil =>
    show run E [Task.workerLoop] y = _
    rw [run_cons, step_workerLoop_closed E y hw hq hc]
    obtain ⟨c, _, _, _, _, _, _, _, _⟩ := y
    obtain ⟨_, _, _, _, _, _, _, _, _, _, _, _, _, _, _⟩ := c
    simp only [] at hq
    subst hq
    simp [run]
  | cons m rest ih =>
    show run E (Task.workerLoop :: List.replicate (rest.length + 1) Task.workerLoop) y = _
    rw [run_cons, step_workerLoop_cons E y m rest hw hq]
    have h := ih { y with c := { y.c with inQueue := rest, processed := y.c.processed ++ [m] } }
      hw hc rfl
    rw [h]
    simp

theorem run_append (E : Env) (s1 s2 : List Task) (y : Sys) :
    run E (s1 ++ s2) y = run E s2 (run E s1 y) := by
  induction s1 generalizing y with
  | nil => rfl
  | cons t rest ih => exact ih (step E t y)

theorem workerLoop_drains (q : List Message) (c : State) (fuel : Nat)
    (hc : c.inClosed = true) (hq : c.inQueue = q) :
    workerLoop (q.length + 1 + fuel) c
      = some ⟨{ c with inQueue := [], processed := c.processed ++ q }, .returned none⟩ := by
  induction q generalizing c with
  | nil =>
    have : 0 + 1 + fuel = fuel + 1 := by omega
    simp only [List.length_nil, this, workerLoop, workerLoopIter, hq, hc]
    obtain ⟨_, _, _, _, _, _, _, _, _, _, _, _, _, _, _⟩ := c
    simp only [] at hq hc
    subst hq
    simp [hc]
  | cons m rest ih =>
    have : (m :: rest).length + 1 + fuel = (rest.length + 1 + fuel) + 1 := by
      simp only [List.length_cons]; omega
    rw [this]
    simp only [workerLoop, workerLoopIter, hq]
    have h := ih { c with inQueue := rest, processed := c.processed ++ [m] } hc rfl
    rw [h]
    simp

/-- C7: in sequential mode, under every schedule of the goroutines and for
every sequence of read results the transport delivers, the messages workerLoop
has passed to processIncomingMessage, followed by those still in the inbound
queue, are exactly the data messages (type other than Open, Ping, Pong) that
inLoop decoded while the channel was alive, in the order the transport
delivered them, none lost and none twice. Each workerLoop iteration takes one
message and dispatches it before the next is taken. When workerLoop has ended
it has returned nil on the closed and drained queue and has dispatched all of
them; and once the queue is closed, scheduling workerLoop once more than there
are queued messages makes it dispatch them all and return nil (the loop
function itself returns with that much fuel). -/
theorem workerLoop_dispatch_order (E : Env) (c : State) (frames : List ReadResult)
    (sched : List Task) (h1 : c.alive = true) (h2 : c.inClosed = false)
    (h3 : c.sequentialInLoop = true) (h4 : c.inQueue = []) (h5 : c.processed = []) :
    ((run E sched (Sys.start c frames)).c.processed
        ++ (run E sched (Sys.start c frames)).c.inQueue
      = dataBeforeClose (run E sched (Sys.start c frames)).readLog) ∧
    ((run E sched (Sys.start c frames)).readLog.map Prod.fst
        ++ (run E sched (Sys.start c frames)).pending = frames) ∧
    (∀ (s : State) (m : Message) (rest : List Message), s.inQueue = m :: rest →
        workerLoopIter s
          = .next { s with inQueue := rest, processed := s.processed ++ [m] }) ∧
    (∀ o, (run E sched (Sys.start c frames)).workerLoopEnd = some o →
        o = .returned none ∧
        (run E sched (Sys.start c frames)).c.inClosed = true ∧
        (run E sched (Sys.start c frames)).c.inQueue = [] ∧
        (run E sched (Sys.start c frames)).c.processed
          = dataBeforeClose (run E sched (Sys.start c frames)).readLog) ∧
    ((run E sched (Sys.start c frames)).workerLoopEnd = none →
      (run E sched (Sys.start c frames)).c.inClosed = true →
        (run E (sched ++ List.replicate
            ((run E sched (Sys.start c frames)).c.inQueue.length + 1) Task.workerLoop)
          (Sys.start c frames)).workerLoopEnd = some (.returned none) ∧
        (run E (sched ++ List.replicate
            ((run E sched (Sys.start c frames)).c.inQueue.length + 1) Task.workerLoop)
          (Sys.start c frames)).c.processed
          = dataBeforeClose (run E sched (Sys.start c frames)).readLog ∧
        ∀ fuel, (workerLoop ((run E sched (Sys.start c frames)).c.inQueue.length + 1 + fuel)
            (run E sched (Sys.start c frames)).c).map (fun r => (r.state.processed, r.outcome))
          = some (dataBeforeClose (run E sched (Sys.start c frames)).readLog,
              .returned none)) := by
  have hinv := run_queueInv E frames sched _ (start_queueInv c frames h1 h2 h3 h4 h5)
  obtain ⟨i1, i2, i3, i4, i5⟩ := hinv
  refine ⟨i3, i4, ?_, ?_, ?_⟩
  · intro s m rest hq
    simp [workerLoopIter, hq]
  · intro o ho
    obtain ⟨e1, e2, e3⟩ := i5 o ho
    refine ⟨e1, e3, e2, ?_⟩
    rw [← i3, e2]; simp
  · intro hw hc
    rw [run_append, run_workerLoop_drains E _ _ hw hc rfl]
    refine ⟨rfl, i3, ?_⟩
    intro fuel
    rw [workerLoop_drains _ _ fuel hc rfl]
    simp [i3]

theorem workerLoop_dispatch_order_witness :
    ((run sampleEnv sampleSchedule (Sys.start sequentialChannel sampleFrames)).c.processed
        ++ (run sampleEnv sampleSchedule (Sys.start sequentialChannel sampleFrames)).c.inQueue
      = dataBeforeClose
          (run sampleEnv sampleSchedule (Sys.start sequentialChannel sampleFrames)).readLog) ∧
    ((run sampleEnv sampleSchedule (Sys.start sequentialChannel sampleFrames)).readLog.map Prod.fst
        ++ (run sampleEnv sampleSchedule (Sys.start sequentialChannel sampleFrames)).pending
      = sampleFrames) ∧
    (run sampleEnv sampleSchedule (Sys.start sequentialChannel sampleFrames)).c.processed
      = [⟨.Data, "a", "42[\"a\"]"⟩] ∧
    (run sampleEnv sampleSchedule (Sys.start sequentialChannel sampleFrames)).c.inQueue
      = [⟨.Data, "b", "42[\"b\"]"⟩] ∧
    (run sampleEnv sampleSchedule (Sys.start sequentialChannel sampleFrames)).c.inClosed = true :=
  ⟨(workerLoop_dispatch_order sampleEnv sequentialChannel sampleFrames sampleSchedule
      rfl rfl rfl rfl rfl).1,
   (workerLoop_dispatch_order sampleEnv sequentialChannel sampleFrames sampleSchedule
      rfl rfl rfl rfl rfl).2.1, by decide, by decide, by decide⟩

/-! ## The overflow map -/

theorem overflowFrame_of_eq {c c2 : State} (h1 : c2.self = c.self)
    (h2 : c2.overflooded = c.overflooded) (h3 : c2.alive = c.alive) : OverflowFrame c c2 :=
  ⟨h1, fun h => ⟨h3 ▸ h, h2⟩, fun h => h3.trans h⟩

theorem overflowFrame_trans {a b c : State} (h1 : OverflowFrame a b) (h2 : OverflowFrame b c) :
    OverflowFrame a c :=
  ⟨h2.1.trans h1.1,
   fun h => ⟨(h1.2.1 (h2.2.1 h).1).1, (h2.2.1 h).2.trans (h1.2.1 (h2.2.1 h).1).2⟩,
   fun h => h2.2.2 (h1.2.2 h)⟩

theorem closeChannel_overflowFrame (E : Env) (c : State) (args : List Error) :
    OverflowFrame c (closeChannel E c args).1 := by
  refine ⟨closeChannel_self E c args, fun h => ?_, fun _ => closeChannel_alive E c args⟩
  rw [closeChannel_alive E c args] at h
  exact absurd h (by decide)

theorem inLoopIter_overflowFrame (E : Env) (c : State) (r : ReadResult) :
    OverflowFrame c (inLoopIter E c r).state := by
  have hg : OverflowFrame c { c with connGetMessageCalls := c.connGetMessageCalls + 1 } :=
    overflowFrame_of_eq rfl rfl rfl
  unfold inLoopIter
  cases r with
  | getMessageError err => exact overflowFrame_trans hg (closeChannel_overflowFrame E _ _)
  | decodeError err => exact overflowFrame_trans hg (closeChannel_overflowFrame E _ _)
  | decoded msg =>
    cases hT : msg.Type_ <;> simp only [hT]
    · cases hs : sliceFromOne msg.Source with
      | none => exact hg
      | some data =>
        simp only []
        have hh : OverflowFrame c
            { c with connGetMessageCalls := c.connGetMessageCalls + 1,
                     header := E.unmarshalInto data c.header } :=
          overflowFrame_of_eq rfl rfl rfl
        cases hu : E.unmarshalErr data with
        | none => exact overflowFrame_trans hh (overflowFrame_of_eq rfl rfl rfl)
        | some e =>
          exact overflowFrame_trans (overflowFrame_trans hh (closeChannel_overflowFrame E _ _))
            (overflowFrame_of_eq rfl rfl rfl)
    · split <;> [(split <;> [exact hg; (split <;> exact overflowFrame_of_eq rfl rfl rfl)]);
        exact overflowFrame_of_eq rfl rfl rfl]
    · cases hs : sendOut _ E.PongMessage with
      | none => exact hg
      | some c2 => rw [sendOut_some _ _ _ hs]; exact overflowFrame_of_eq rfl rfl rfl
    · exact hg
    · split <;> [(split <;> [exact hg; (split <;> exact overflowFrame_of_eq rfl rfl rfl)]);
        exact overflowFrame_of_eq rfl rfl rfl]

theorem workerLoopIter_overflowFrame (c : State) : OverflowFrame c (workerLoopIter c).state := by
  have h := workerLoopIter_frame c
  exact overflowFrame_of_eq h.2.2.2.1 h.2.2.2.2.1 h.2.1

theorem pingerIter_overflowFrame (E : Env) (c : State) :
    OverflowFrame c (pingerIter E c).state := by
  have h := pingerIter_frame E c
  exact overflowFrame_of_eq h.2.2.1 h.2.2.2.1 h.2.1

theorem outLoopRecv_overflowFrame (E : Env) (c : State) :
    OverflowFrame c (outLoopRecv E c).state := by
  unfold outLoopRecv
  cases ho : c.out with
  | nil => exact overflowFrame_of_eq rfl rfl rfl
  | cons msg rest =>
    simp only []
    split
    · exact overflowFrame_of_eq rfl rfl rfl
    · have hw : OverflowFrame c (WriteMessage { c with out := rest } msg).1 := by
        unfold WriteMessage
        simp only []
        split <;> exact overflowFrame_of_eq rfl rfl rfl
      split
      · exact overflowFrame_trans hw (closeChannel_overflowFrame E _ _)
      · exact hw

/-- A step that does not update the overflow map on a live channel, does not
read the queue depth and does not move `outLoop` into or out of the gap
between its read and its branch keeps the invariant of the overflow map. -/
theorem overflowInv_of_frame {y z : Sys} (h : OverflowInv y) (hc : OverflowFrame y.c z.c)
    (hb : z.outLoopPc.isBranch = y.outLoopPc.isBranch)
    (hd : ∀ d, z.outLoopPc = .branch d → y.outLoopPc = .branch d)
    (hl : z.lastObserved = y.lastObserved) : OverflowInv z := by
  obtain ⟨h1, h2, h3⟩ := h
  obtain ⟨f1, f2, f3⟩ := hc
  refine ⟨?_, ?_, ?_⟩
  · intro ha hnb
    obtain ⟨ha2, hreg⟩ := f2 ha
    rw [f1, hreg, hl]
    exact h1 ha2 (hb ▸ hnb)
  · intro d hz
    rw [hl]; exact h2 d (hd d hz)
  · intro d hz hge hnb
    rw [hl] at hz
    exact f3 (h3 d hz hge (hb ▸ hnb))

theorem step_overflowInv (E : Env) (t : Task) (y : Sys) (h : OverflowInv y) :
    OverflowInv (step E t y) := by
  cases t with
  | inLoop =>
    rcases step_inLoop_shape E y with hs | ⟨r, rest, e, _, hs⟩
    · rw [hs]; exact h
    · rw [hs]
      exact overflowInv_of_frame h (inLoopIter_overflowFrame E y.c r) rfl (fun _ hz => hz) rfl
  | workerLoop =>
    rcases step_workerLoop_shape E y with hs | ⟨e, hs⟩
    · rw [hs]; exact h
    · rw [hs]
      exact overflowInv_of_frame h (workerLoopIter_overflowFrame y.c) rfl (fun _ hz => hz) rfl
  | pinger =>
    rcases step_pinger_shape E y with hs | ⟨e, hs⟩
    · rw [hs]; exact h
    · rw [hs]
      exact overflowInv_of_frame h (pingerIter_overflowFrame E y.c) rfl (fun _ hz => hz) rfl
  | close args =>
    exact overflowInv_of_frame h (closeChannel_overflowFrame E y.c args) rfl (fun _ hz => hz) rfl
  | outLoop =>
    cases he : y.outLoopEnd with
    | some o =>
      have : step E Task.outLoop y = y := by simp [step, he]
      rw [this]; exact h
    | none =>
      cases hpc : y.outLoopPc with
      | check =>
        have hs : step E Task.outLoop y
            = { y with outLoopPc := .branch y.c.out.length,
                       lastObserved := some y.c.out.length } := by
          simp [step, he, hpc]
        rw [hs]
        refine ⟨?_, ?_, ?_⟩
        · intro _ hnb
          exact absurd hnb (by simp [OutPc.isBranch])
        · intro d hz
          have : y.c.out.length = d := by
            have hz2 : OutPc.branch y.c.out.length = OutPc.branch d := hz
            exact OutPc.branch.inj hz2
          rw [← this]
        · intro d _ _ hnb
          exact absurd hnb (by simp [OutPc.isBranch])
      | branch d =>
        obtain ⟨h1, h2, h3⟩ := h
        have hlo : y.lastObserved = some d := h2 d hpc
        by_cases hbig : queueBufferSize - 1 ≤ d
        · have hs : step E Task.outLoop y
              = { y with c := (closeChannel E y.c [Error.ErrorSocketOverflood]).1,
                         outLoopEnd := some (.returned none), outLoopPc := .recv } := by
            simp [step, he, hpc, outLoopBranch_overflow E y.c d hbig]
          rw [hs]
          refine ⟨?_, ?_, ?_⟩
          · intro ha _
            have : (closeChannel E y.c [Error.ErrorSocketOverflood]).1.alive = true := ha
            rw [closeChannel_alive] at this
            exact absurd this (by decide)
          · intro d2 hz
            exact absurd (hz : OutPc.recv = OutPc.branch d2) (by simp)
          · intro _ _ _ _
            exact closeChannel_alive E y.c _
        · by_cases hhalf : queueBufferSize / 2 < d
          · have hs : step E Task.outLoop y
                = { y with c := { y.c with
                             overflooded := overfloodedInsert y.c.overflooded y.c.self },
                           outLoopPc := .recv } := by
              simp [step, he, hpc, outLoopBranch, hbig, hhalf]
            rw [hs]
            refine ⟨?_, ?_, ?_⟩
            · intro _ _
              refine ⟨fun _ => ⟨d, hlo, hhalf, Nat.lt_of_not_le hbig⟩, fun _ => ?_⟩
              exact mem_overfloodedInsert _ _
            · intro d2 hz
              exact absurd (hz : OutPc.recv = OutPc.branch d2) (by simp)
            · intro d2 hz hge _
              have hz2 : y.lastObserved = some d2 := hz
              rw [hlo] at hz2
              exact absurd ((Option.some.inj hz2) ▸ hge) hbig
          · have hs : step E Task.outLoop y
                = { y with c := { y.c with
                             overflooded := overfloodedDelete y.c.overflooded y.c.self },
                           outLoopPc := .recv } := by
              simp [step, he, hpc, outLoopBranch, hbig, hhalf]
            rw [hs]
            refine ⟨?_, ?_, ?_⟩
            · intro _ _
              refine ⟨fun hm => absurd hm (not_mem_overfloodedDelete _ _), fun hx => ?_⟩
              obtain ⟨d2, hz, hlt, _⟩ := hx
              have hz2 : y.lastObserved = some d2 := hz
              rw [hlo] at hz2
              exact absurd ((Option.some.inj hz2) ▸ hlt) hhalf
            · intro d2 hz
              exact absurd (hz : OutPc.recv = OutPc.branch d2) (by simp)
            · intro d2 hz hge _
              have hz2 : y.lastObserved = some d2 := hz
              rw [hlo] at hz2
              exact absurd ((Option.some.inj hz2) ▸ hge) hbig
      | recv =>
        have hf := outLoopRecv_overflowFrame E y.c
        have hshape : step E Task.outLoop y = y ∨
            ∃ e pc, (pc = OutPc.check ∨ pc = OutPc.recv) ∧
              step E Task.outLoop y = { y with c := (outLoopRecv E y.c).state, outLoopEnd := e,
                                               outLoopPc := pc } := by
          cases hit : outLoopRecv E y.c with
          | next c2 =>
            exact Or.inr ⟨none, .check, Or.inl rfl, by simp [step, he, hpc, hit, Iter.state]⟩
          | done c2 o =>
            cases o with
            | blocked => left; simp [step, he, hpc, hit]
            | returned e =>
              exact Or.inr ⟨some (.returned e), .recv, Or.inr rfl,
                by simp [step, he, hpc, hit, Iter.state]⟩
            | sendOnClosedChannel =>
              exact Or.inr ⟨some .sendOnClosedChannel, .recv, Or.inr rfl,
                by simp [step, he, hpc, hit, Iter.state]⟩
            | sliceOutOfRange =>
              exact Or.inr ⟨some .sliceOutOfRange, .recv, Or.inr rfl,
                by simp [step, he, hpc, hit, Iter.state]⟩
        rcases hshape with hs | ⟨e, pc, hpc2, hs⟩
        · rw [hs]; exact h
        · rw [hs]
          refine overflowInv_of_frame h hf ?_ ?_ rfl
          · show pc.isBranch = y.outLoopPc.isBranch
            rw [hpc]
            rcases hpc2 with hp | hp
            · rw [hp]; rfl
            · rw [hp]
          · intro d hz
            have hz2 : pc = OutPc.branch d := hz
            rcases hpc2 with hp | hp <;> rw [hp] at hz2 <;> exact absurd hz2 (by simp)

theorem run_overflowInv (E : Env) (sched : List Task) (y : Sys) (h : OverflowInv y) :
    OverflowInv (run E sched y) := by
  induction sched generalizing y with
  | nil => exact h
  | cons t rest ih => exact ih (step E t y) (step_overflowInv E t y h)

theorem start_overflowInv (c : State) (frames : List ReadResult)
    (hreg : c.self ∉ c.overflooded) : OverflowInv (Sys.start c frames) := by
  refine ⟨?_, ?_, ?_⟩
  · intro _ _
    simp [Sys.start, hreg]
  · intro d hz
    simp [Sys.start] at hz
  · intro d hz
    simp [Sys.start] at hz

theorem run_outLoop_read_branch (E : Env) (c : State) (frames : List ReadResult)
    (h1 : queueBufferSize / 2 < c.out.length) (h2 : c.out.length < queueBufferSize - 1) :
    run E [Task.outLoop, Task.outLoop] (Sys.start c frames)
      = { Sys.start c frames with
            c := { c with overflooded := overfloodedInsert c.overflooded c.self },
            outLoopPc := .recv, lastObserved := some c.out.length } := by
  have h3 : ¬ (queueBufferSize - 1 ≤ c.out.length) := Nat.not_le_of_lt h2
  simp [run, step, Sys.start, outLoopBranch, h1, h3]

theorem run_outLoop_read_close_branch (E : Env) (c : State) (frames : List ReadResult)
    (args : List Error) (ha : c.alive = true)
    (h1 : queueBufferSize / 2 < c.out.length) (h2 : c.out.length < queueBufferSize - 1) :
    (run E [Task.outLoop, Task.close args, Task.outLoop, Task.outLoop]
        (Sys.start c frames)).c.alive = false ∧
    (run E [Task.outLoop, Task.close args, Task.outLoop, Task.outLoop]
        (Sys.start c frames)).c.overflooded
      = overfloodedInsert (overfloodedDelete c.overflooded c.self) c.self ∧
    (run E [Task.outLoop, Task.close args, Task.outLoop, Task.outLoop]
        (Sys.start c frames)).outLoopEnd = some (.returned none) ∧
    (run E [Task.outLoop, Task.close args, Task.outLoop, Task.outLoop]
        (Sys.start c frames)).c.self = c.self := by
  have h3 : ¬ (queueBufferSize - 1 ≤ c.out.length) := Nat.not_le_of_lt h2
  simp [run, step, Sys.start, outLoopBranch, outLoopRecv, closeChannel_of_alive E c args ha,
    h1, h3]

theorem run_outLoop_read_overflow (E : Env) (c : State) (frames : List ReadResult)
    (h : queueBufferSize - 1 ≤ c.out.length) :
    run E [Task.outLoop, Task.outLoop] (Sys.start c frames)
      = { Sys.start c frames with
            c := (closeChannel E c [Error.ErrorSocketOverflood]).1,
            outLoopEnd := some (.returned none),
            outLoopPc := .recv, lastObserved := some c.out.length } := by
  simp [run, step, Sys.start, outLoopBranch_overflow E c c.out.length h]

/-- C6 (counterexample), at two inputs. First: outLoop starts on a live channel
with 499 buffered frames; after its read and its branch the depth observed last
is 499, above half the capacity, and the channel is not in the overflow map
(the branch closed it instead): membership is not equivalent to "the depth
observed last exceeded 250". Second: outLoop reads depth 300 on a live channel,
then a closeChannel call from Client.Close runs to its end, then outLoop takes
its branch on the 300 it read and receives the Close sentinel: outLoop has
returned, closeChannel has run on the channel (transport closed once, alive
false), and the channel is in the overflow map. -/
theorem overflooded_not_iff_depth :
    ((run sampleEnv [Task.outLoop, Task.outLoop]
        (Sys.start (loadedChannel 499) [])).lastObserved = some 499 ∧
      queueBufferSize / 2 < 499 ∧
      (run sampleEnv [Task.outLoop, Task.outLoop] (Sys.start (loadedChannel 499) [])).c.self ∉
        (run sampleEnv [Task.outLoop, Task.outLoop]
          (Sys.start (loadedChannel 499) [])).c.overflooded) ∧
    ((run sampleEnv [Task.outLoop, Task.close [], Task.outLoop, Task.outLoop]
        (Sys.start (loadedChannel 300) [])).c.alive = false ∧
      (run sampleEnv [Task.outLoop, Task.close [], Task.outLoop, Task.outLoop]
        (Sys.start (loadedChannel 300) [])).outLoopEnd = some (.returned none) ∧
      (run sampleEnv [Task.outLoop, Task.close [], Task.outLoop, Task.outLoop]
        (Sys.start (loadedChannel 300) [])).c.self ∈
        (run sampleEnv [Task.outLoop, Task.close [], Task.outLoop, Task.outLoop]
          (Sys.start (loadedChannel 300) [])).c.overflooded) := by
  have hbig : queueBufferSize - 1 ≤ (loadedChannel 499).out.length := by
    rw [loadedChannel_out_length]; decide
  have h1 : queueBufferSize / 2 < (loadedChannel 300).out.length := by
    rw [loadedChannel_out_length]; decide
  have h2 : (loadedChannel 300).out.length < queueBufferSize - 1 := by
    rw [loadedChannel_out_length]; decide
  obtain ⟨r1, r2, r3, r4⟩ :=
    run_outLoop_read_close_branch sampleEnv (loadedChannel 300) [] [] rfl h1 h2
  refine ⟨⟨?_, by decide, ?_⟩, r1, r3, ?_⟩
  · rw [run_outLoop_read_overflow sampleEnv _ _ hbig]
    show some (loadedChannel 499).out.length = some 499
    rw [loadedChannel_out_length]
  · rw [run_outLoop_read_overflow sampleEnv _ _ hbig]
    show (closeChannel sampleEnv (loadedChannel 499) [Error.ErrorSocketOverflood]).1.self ∉
      (closeChannel sampleEnv (loadedChannel 499) [Error.ErrorSocketOverflood]).1.overflooded
    rw [closeChannel_of_alive sampleEnv (loadedChannel 499) _ rfl]
    exact not_mem_overfloodedDelete _ _
  · rw [r2, r4]
    exact mem_overfloodedInsert _ _

/-- C6 (amended): in every state a channel reaches from a start outside the
overflow map, under every schedule of the goroutines and of closeChannel calls:
while the channel is alive (closeChannel has not run on it) and outLoop is not
between its read of the outbound depth and the branch on it, the channel is in
the overflow map if and only if the depth outLoop observed last exceeded half
the capacity (250) and was below capacity - 1 (499); an observed depth of 499
or more, once its branch has run, has closed the channel instead of
registering it; and a closeChannel call on the live channel leaves it outside
the map when it returns. -/
theorem overflooded_iff_depth_while_alive (E : Env) (c : State) (frames : List ReadResult)
    (sched : List Task) (hreg : c.self ∉ c.overflooded) :
    ((run E sched (Sys.start c frames)).c.alive = true →
      (run E sched (Sys.start c frames)).outLoopPc.isBranch = false →
      ((run E sched (Sys.start c frames)).c.self ∈
          (run E sched (Sys.start c frames)).c.overflooded ↔
        ∃ d, (run E sched (Sys.start c frames)).lastObserved = some d ∧
          queueBufferSize / 2 < d ∧ d < queueBufferSize - 1)) ∧
    (∀ d, (run E sched (Sys.start c frames)).lastObserved = some d →
      queueBufferSize - 1 ≤ d →
      (run E sched (Sys.start c frames)).outLoopPc.isBranch = false →
      (run E sched (Sys.start c frames)).c.alive = false) ∧
    ((run E sched (Sys.start c frames)).c.alive = true → ∀ args,
      (run E sched (Sys.start c frames)).c.self ∉
        (closeChannel E (run E sched (Sys.start c frames)).c args).1.overflooded) := by
  obtain ⟨i1, _, i3⟩ := run_overflowInv E sched _ (start_overflowInv c frames hreg)
  refine ⟨i1, i3, ?_⟩
  intro ha args
  rw [closeChannel_of_alive E _ args ha]
  exact not_mem_overfloodedDelete _ _

theorem overflooded_iff_depth_while_alive_witness :
    (run sampleEnv [Task.outLoop, Task.outLoop] (Sys.start (loadedChannel 300) [])).c.alive = true ∧
    (run sampleEnv [Task.outLoop, Task.outLoop] (Sys.start (loadedChannel 300) [])).lastObserved
      = some 300 ∧
    (run sampleEnv [Task.outLoop, Task.outLoop] (Sys.start (loadedChannel 300) [])).c.self ∈
      (run sampleEnv [Task.outLoop, Task.outLoop] (Sys.start (loadedChannel 300) [])).c.overflooded :=
  have h1 : queueBufferSize / 2 < (loadedChannel 300).out.length := by
    rw [loadedChannel_out_length]; decide
  have h2 : (loadedChannel 300).out.length < queueBufferSize - 1 := by
    rw [loadedChannel_out_length]; decide
  have hrun := run_outLoop_read_branch sampleEnv (loadedChannel 300) [] h1 h2
  have ha : (run sampleEnv [Task.outLoop, Task.outLoop]
      (Sys.start (loadedChannel 300) [])).c.alive = true := by rw [hrun]; rfl
  have hb : (run sampleEnv [Task.outLoop, Task.outLoop]
      (Sys.start (loadedChannel 300) [])).outLoopPc.isBranch = false := by rw [hrun]; rfl
  have hl : (run sampleEnv [Task.outLoop, Task.outLoop]
      (Sys.start (loadedChannel 300) [])).lastObserved = some 300 := by
    rw [hrun]
    show some (loadedChannel 300).out.length = some 300
    rw [loadedChannel_out_length]
  ⟨ha, hl,
   ((overflooded_iff_depth_while_alive sampleEnv (loadedChannel 300) []
      [Task.outLoop, Task.outLoop] (by decide)).1 ha hb).2 ⟨300, hl, by decide, by decide⟩⟩

end Gosocketio
